import Mathlib

/-!
Verification development for the Synology directory-size scanning service.

Shallow embedding of the core algorithms of the repository:
  * `explore_syno_api.py` — `SynologyAPI._is_task_finished`, `_api_call`;
  * `app/services/dir_size_polling.py` — `DirSizePollingHelper.update_polling_interval`,
    `handle_error_599` and the 599 dispatch in `poll_task_status`;
  * `app/services/storage.py` — `ScanStorage._normalize_folder_path`,
    `_generate_primary_key`, `_init_database`, `_save_to_disk`, `add_result`,
    `_load_from_disk` and the read queries;
  * `app/services/scanner.py` — `ScannerService.run_scan` (status finalization);
  * `app/config/loader.py` — `load_config` / `_remove_duplicate_slugs` together with
    `app/models/config.py` (`ConfigYAML.generate_ids`) and `app/utils/slug.py`;
  * `app/api/routes.py` — the baseline/live path indexing of `get_scan_progress`.

Python dictionaries holding JSON responses are embedded as structures whose fields
are the results of the `.get(key, default)` accesses the code performs; values that
can be JSON `null` are `Option`s.
-/

namespace Ssa

/-! ## Python-style dynamic values

The NAS returns the `finished` field as a bool, a string, or a number, and the
599 handler checks plain Python truthiness of dictionary fields.  `PyVal` embeds
the JSON scalar values these code paths can see. -/

inductive PyVal where
  | bool (b : Bool)
  | str (s : String)
  | num (q : ℚ)
  | null
  deriving DecidableEq, Repr

/-- Python truthiness of a scalar value (`if value:`). -/
def PyVal.truthy : PyVal → Bool
  | .bool b => b
  | .str s => s ≠ ""
  | .num q => q ≠ 0
  | .null => false

/-! ## `SynologyAPI._is_task_finished` (explore_syno_api.py lines 82–99)

```python
if finished_value is True:
    return True
elif isinstance(finished_value, str) and finished_value.lower() in ("true", "1", "yes"):
    return True
elif isinstance(finished_value, (int, float)) and finished_value == 1:
    return True
return False
```

In Python, `True`/`False` are also instances of `int`; `PyVal.bool b` therefore
falls through to the numeric comparison when `b` is `False` (and `False == 1` is
false there). -/

/-- Python's `str.lower()` (the values compared here are ASCII). -/
def pyLower (s : String) : String := ⟨s.data.map Char.toLower⟩

def isTaskFinished : PyVal → Bool
  | .bool true => true
  | .bool false => false        -- isinstance(False, int) holds but False == 1 is false
  | .str s => pyLower s == "true" || pyLower s == "1" || pyLower s == "yes"
  | .num q => q = 1
  | .null => false

/-! ## `DirSizePollingHelper.update_polling_interval` (dir_size_polling.py lines 210–284)

The function receives the `data` section of a successful status response.  It only
looks at the results of the `.get` accesses below, so the embedding records those
directly:

  * `progress`    — `data.get("progress", 0)`; `none` iff the stored value is JSON null;
  * `processed_num` — `data.get("processed_num", -1)`;
  * `num_dir`, `num_file`, `total_size` — `data.get(…, 0)`.
-/

structure StatusData where
  progress : Option ℚ
  processed_num : ℚ
  num_dir : ℤ
  num_file : ℤ
  total_size : ℤ
  deriving DecidableEq, Repr

/-- State threaded through the adaptive polling computation: the current interval,
the last tracked progress value, the no-progress counter, and the last positive
`num_dir` / `num_file` / `total_size` values seen. -/
structure PollState where
  current_interval : ℤ
  last_progress : Option ℚ
  no_progress_count : ℕ
  last_num_dir : Option ℤ
  last_num_file : Option ℤ
  last_total_size : Option ℤ
  deriving DecidableEq, Repr

/-- The `progress_detected` flag computed in `update_polling_interval`:

```python
progress_detected = False
if current_progress is not None and last_progress is not None:
    if current_progress > last_progress:
        progress_detected = True
elif last_progress is not None:
    if processed_num >= 0 and processed_num > (last_progress or 0):
        progress_detected = True
if not progress_detected:
    if last_num_dir is not None and current_num_dir > last_num_dir: ...
    elif last_num_file is not None and current_num_file > last_num_file: ...
    elif last_total_size is not None and current_total_size > last_total_size: ...
```

(`last_progress or 0` equals `last_progress` numerically, since `0 or 0` is `0`.) -/
def progressDetected (data : StatusData) (last_progress : Option ℚ)
    (last_num_dir last_num_file last_total_size : Option ℤ) : Bool :=
  let viaProgress : Bool :=
    match data.progress, last_progress with
    | some cp, some lp => cp > lp
    | none, some lp => data.processed_num ≥ 0 ∧ data.processed_num > lp
    | _, none => false
  if viaProgress then true
  else
    (match last_num_dir with | some d => data.num_dir > d | none => false) ||
    (match last_num_file with | some f => data.num_file > f | none => false) ||
    (match last_total_size with | some t => data.total_size > t | none => false)

/-- `update_polling_interval`, returning the new `(interval, last_progress,
no_progress_count)` triple. -/
def updatePollingInterval (data : StatusData) (current_interval min_interval max_interval : ℤ)
    (last_progress : Option ℚ) (no_progress_count : ℕ)
    (last_num_dir last_num_file last_total_size : Option ℤ) :
    ℤ × Option ℚ × ℕ :=
  let detected := progressDetected data last_progress last_num_dir last_num_file last_total_size
  let (current_interval, no_progress_count) :=
    if detected then
      ((if current_interval > min_interval then min_interval else current_interval), 0)
    else
      let no_progress_count := no_progress_count + 1
      (if no_progress_count ≥ 3 ∧ current_interval < max_interval then
          min (current_interval + 2) max_interval
        else current_interval,
       no_progress_count)
  let new_last_progress : ℚ :=
    match data.progress with
    | some cp => cp
    | none => data.processed_num
  (current_interval, some new_last_progress, no_progress_count)

/-- The caller `process_status_response` (dir_size_polling.py lines 416–419) updates
the tracked `last_*` values only when the current values are positive:

```python
new_last_num_dir = num_dir if num_dir > 0 else last_num_dir
```

Together with `update_polling_interval` this gives one step of the adaptive loop on
a successful poll. -/
def processStatusStep (data : StatusData) (min_interval max_interval : ℤ)
    (st : PollState) : PollState :=
  let (i, lp, npc) := updatePollingInterval data st.current_interval min_interval max_interval
    st.last_progress st.no_progress_count st.last_num_dir st.last_num_file st.last_total_size
  { current_interval := i
    last_progress := lp
    no_progress_count := npc
    last_num_dir := if data.num_dir > 0 then some data.num_dir else st.last_num_dir
    last_num_file := if data.num_file > 0 then some data.num_file else st.last_num_file
    last_total_size := if data.total_size > 0 then some data.total_size else st.last_total_size }

/-- Initial polling state of `poll_task_status` (dir_size_polling.py lines 594–611). -/
def initialPollState (poll_interval : ℤ) : PollState :=
  { current_interval := poll_interval
    last_progress := none
    no_progress_count := 0
    last_num_dir := none
    last_num_file := none
    last_total_size := none }

/-! ## Theorems for claims C8 and C1 -/

/-- C8: the finished predicate returns true exactly for the boolean true, the strings
"true"/"True"/"TRUE"/"1"/"yes" (case-insensitive), and the numeric value 1 (which in
the rational embedding covers both the integer `1` and the float `1.0`), and returns
false for false, "false", 0, None, the empty string, 2 and -1. -/
theorem isTaskFinished_spec :
    isTaskFinished (.bool true) = true ∧
    isTaskFinished (.str "true") = true ∧
    isTaskFinished (.str "True") = true ∧
    isTaskFinished (.str "TRUE") = true ∧
    isTaskFinished (.str "1") = true ∧
    isTaskFinished (.str "yes") = true ∧
    isTaskFinished (.str "Yes") = true ∧
    isTaskFinished (.str "YES") = true ∧
    isTaskFinished (.num 1) = true ∧
    isTaskFinished (.bool false) = false ∧
    isTaskFinished (.str "false") = false ∧
    isTaskFinished (.num 0) = false ∧
    isTaskFinished .null = false ∧
    isTaskFinished (.str "") = false ∧
    isTaskFinished (.num 2) = false ∧
    isTaskFinished (.num (-1)) = false := by
  decide

/-- The adaptive-interval logic that the polling loop runs appears twice in the
source: `DirSizePollingHelper.update_polling_interval` above (used by
`poll_task_status`), and an inline copy in `SynologyAPI.get_dir_size_async`
(explore_syno_api.py lines 1250–1273):

```python
current_progress = data.get("progress", 0)
processed_num = data.get("processed_num", -1)
if current_progress is not None and last_progress is not None:
    if current_progress > last_progress or (processed_num >= 0 and processed_num > (last_progress or 0)):
        if current_poll_interval > min_poll_interval:
            current_poll_interval = min_poll_interval
        no_progress_count = 0
    else:
        no_progress_count += 1
        if no_progress_count >= 3 and current_poll_interval < max_poll_interval:
            new_interval = min(current_poll_interval + 2, max_poll_interval)
            if new_interval != current_poll_interval:
                current_poll_interval = new_interval
last_progress = current_progress if current_progress is not None else processed_num
```

The inline copy never looks at `num_dir` / `num_file` / `total_size`, consults
`processed_num` alongside an unchanged `progress`, and — when either the current
or the tracked progress value is null — neither resets nor increments. -/
def asyncProgressDetected (data : StatusData) (last_progress : Option ℚ) : Bool :=
  match data.progress, last_progress with
  | some cp, some lp => cp > lp ∨ (data.processed_num ≥ 0 ∧ data.processed_num > lp)
  | _, _ => false

def updatePollingIntervalAsync (data : StatusData)
    (current_interval min_interval max_interval : ℤ)
    (last_progress : Option ℚ) (no_progress_count : ℕ) : ℤ × Option ℚ × ℕ :=
  let (current_interval, no_progress_count) :=
    match data.progress, last_progress with
    | some cp, some lp =>
      if cp > lp ∨ (data.processed_num ≥ 0 ∧ data.processed_num > lp) then
        ((if current_interval > min_interval then min_interval else current_interval), 0)
      else
        let no_progress_count := no_progress_count + 1
        (if no_progress_count ≥ 3 ∧ current_interval < max_interval then
            min (current_interval + 2) max_interval
          else current_interval,
         no_progress_count)
    | _, _ => (current_interval, no_progress_count)
  let new_last_progress : ℚ :=
    match data.progress with
    | some cp => cp
    | none => data.processed_num
  (current_interval, some new_last_progress, no_progress_count)

/-- C1 counterexample, refuting "progress is detected if any of progress,
processedNum, numDir, numFile, totalSize strictly increased" for both cited
implementations:

* helper (`update_polling_interval`): `processed_num` strictly increases
  between two consecutive polls (5 → 10) while the `progress` field is present
  and unchanged, yet the no-progress counter after the second poll is 2 instead
  of the 0 the claim requires;
* inline loop (`get_dir_size_async`): `total_size` strictly increases
  (0 → 100) while `progress` is present and unchanged, yet the counter after
  the second poll is 1 instead of 0 — the inline loop never consults
  `total_size` at all. -/
theorem updatePollingInterval_cx :
    ((StatusData.mk (some 3) 10 0 0 0).processed_num >
      (StatusData.mk (some 3) 5 0 0 0).processed_num ∧
    (processStatusStep (StatusData.mk (some 3) 10 0 0 0) 2 10
        (processStatusStep (StatusData.mk (some 3) 5 0 0 0) 2 10
          (initialPollState 2))).no_progress_count = 2) ∧
    ((StatusData.mk (some 3) (-1) 0 0 100).total_size >
      (StatusData.mk (some 3) (-1) 0 0 0).total_size ∧
    (updatePollingIntervalAsync (StatusData.mk (some 3) (-1) 0 0 100)
        (updatePollingIntervalAsync (StatusData.mk (some 3) (-1) 0 0 0) 2 2 10 none 0).1
        2 10
        (updatePollingIntervalAsync (StatusData.mk (some 3) (-1) 0 0 0) 2 2 10 none 0).2.1
        (updatePollingIntervalAsync (StatusData.mk (some 3) (-1) 0 0 0) 2 2 10 none 0).2.2).2.2
      = 1) := by
  decide

/-- Reduction of `updatePollingIntervalAsync` when both the current and the
tracked progress values are non-null. -/
theorem updatePollingIntervalAsync_some_eq (pn : ℚ) (nd nf ts : ℤ) (cp l : ℚ)
    (cur minI maxI : ℤ) (npc : ℕ) :
    updatePollingIntervalAsync ⟨some cp, pn, nd, nf, ts⟩ cur minI maxI (some l) npc =
      if cp > l ∨ (pn ≥ 0 ∧ pn > l) then
        ((if cur > minI then minI else cur), some cp, 0)
      else
        ((if npc + 1 ≥ 3 ∧ cur < maxI then min (cur + 2) maxI else cur), some cp, npc + 1) := by
  by_cases hP : cp > l ∨ (pn ≥ 0 ∧ pn > l)
  · simp [updatePollingIntervalAsync, hP]
  · simp [updatePollingIntervalAsync, hP]

/-- C1 amended, covering both cited implementations of the adaptive rule.

Helper (`DirSizePollingHelper.update_polling_interval`, used by
`poll_task_status`): progress is detected by `progressDetected` — progress
strictly increased when both the current and the previously tracked value are
known; `processed_num` is consulted only when the current progress field is
null and is compared against the previously tracked progress value;
`num_dir`/`num_file`/`total_size` must strictly exceed their last recorded
positive values.

Inline loop (`SynologyAPI.get_dir_size_async`): the rule applies only when
both the current and the tracked progress values are non-null; it detects
progress iff the progress value strictly increased or `processed_num ≥ 0`
exceeds the tracked progress value; it never consults
`num_dir`/`num_file`/`total_size`; and when either progress value is null it
neither resets nor increments.

In both: on detection the interval is reset to `min_interval` and the counter
to 0; otherwise the counter is incremented and, once it reaches 3, the
interval grows by 2 per poll, capped at `max_interval`; the interval stays
within `[min_interval, max_interval]`. -/
theorem updatePollingInterval_amended (data : StatusData) (cur minI maxI : ℤ)
    (lp : Option ℚ) (npc : ℕ) (lnd lnf lts : Option ℤ)
    (hmin : minI ≤ cur) (hmax : cur ≤ maxI) :
    (progressDetected data lp lnd lnf lts = true →
      (updatePollingInterval data cur minI maxI lp npc lnd lnf lts).1 = minI ∧
      (updatePollingInterval data cur minI maxI lp npc lnd lnf lts).2.2 = 0) ∧
    (progressDetected data lp lnd lnf lts = false →
      (updatePollingInterval data cur minI maxI lp npc lnd lnf lts).2.2 = npc + 1 ∧
      (updatePollingInterval data cur minI maxI lp npc lnd lnf lts).1 =
        if npc + 1 ≥ 3 then min (cur + 2) maxI else cur) ∧
    (minI ≤ (updatePollingInterval data cur minI maxI lp npc lnd lnf lts).1 ∧
      (updatePollingInterval data cur minI maxI lp npc lnd lnf lts).1 ≤ maxI) ∧
    (asyncProgressDetected data lp = true →
      (updatePollingIntervalAsync data cur minI maxI lp npc).1 = minI ∧
      (updatePollingIntervalAsync data cur minI maxI lp npc).2.2 = 0) ∧
    (data.progress.isSome = true → lp.isSome = true →
      asyncProgressDetected data lp = false →
      (updatePollingIntervalAsync data cur minI maxI lp npc).2.2 = npc + 1 ∧
      (updatePollingIntervalAsync data cur minI maxI lp npc).1 =
        if npc + 1 ≥ 3 then min (cur + 2) maxI else cur) ∧
    (data.progress.isNone = true ∨ lp.isNone = true →
      (updatePollingIntervalAsync data cur minI maxI lp npc).1 = cur ∧
      (updatePollingIntervalAsync data cur minI maxI lp npc).2.2 = npc) ∧
    (minI ≤ (updatePollingIntervalAsync data cur minI maxI lp npc).1 ∧
      (updatePollingIntervalAsync data cur minI maxI lp npc).1 ≤ maxI) := by
  refine ⟨fun h => ?_, fun h => ?_, ?_, fun h => ?_, fun h1 h2 h => ?_, fun h => ?_, ?_⟩
  · simp only [updatePollingInterval, h, if_true]
    refine ⟨?_, by trivial⟩
    show (if cur > minI then minI else cur) = minI
    split <;> omega
  · simp only [updatePollingInterval, h, Bool.false_eq_true, if_false]
    refine ⟨by trivial, ?_⟩
    show (if npc + 1 ≥ 3 ∧ cur < maxI then min (cur + 2) maxI else cur) = _
    rcases min_cases (cur + 2) maxI with ⟨hm, _⟩ | ⟨hm, _⟩ <;> split <;> split <;> omega
  · rcases h : progressDetected data lp lnd lnf lts with _ | _ <;>
      simp only [updatePollingInterval, h, Bool.false_eq_true, if_false, if_true]
    · constructor
      · show minI ≤ if (npc + 1 ≥ 3 ∧ cur < maxI) then min (cur + 2) maxI else cur
        rcases min_cases (cur + 2) maxI with ⟨hm, _⟩ | ⟨hm, _⟩ <;> split <;> omega
      · show (if (npc + 1 ≥ 3 ∧ cur < maxI) then min (cur + 2) maxI else cur) ≤ maxI
        rcases min_cases (cur + 2) maxI with ⟨hm, _⟩ | ⟨hm, _⟩ <;> split <;> omega
    · constructor
      · show minI ≤ if cur > minI then minI else cur
        split <;> omega
      · show (if cur > minI then minI else cur) ≤ maxI
        split <;> omega
  · obtain ⟨prog, pn, nd, nf, ts⟩ := data
    rcases prog with _ | cp
    · exact absurd h (by simp [asyncProgressDetected])
    · rcases lp with _ | l
      · exact absurd h (by simp [asyncProgressDetected])
      · have hd : asyncProgressDetected ⟨some cp, pn, nd, nf, ts⟩ (some l) =
            decide (cp > l ∨ (pn ≥ 0 ∧ pn > l)) := rfl
        rw [hd] at h
        have hP := of_decide_eq_true h
        rw [updatePollingIntervalAsync_some_eq, if_pos hP]
        refine ⟨?_, rfl⟩
        show (if cur > minI then minI else cur) = minI
        split <;> omega
  · obtain ⟨prog, pn, nd, nf, ts⟩ := data
    rcases prog with _ | cp
    · exact absurd h1 (by simp)
    · rcases lp with _ | l
      · exact absurd h2 (by simp)
      · have hd : asyncProgressDetected ⟨some cp, pn, nd, nf, ts⟩ (some l) =
            decide (cp > l ∨ (pn ≥ 0 ∧ pn > l)) := rfl
        rw [hd] at h
        have hP := of_decide_eq_false h
        rw [updatePollingIntervalAsync_some_eq, if_neg hP]
        refine ⟨rfl, ?_⟩
        show (if npc + 1 ≥ 3 ∧ cur < maxI then min (cur + 2) maxI else cur) =
          if npc + 1 ≥ 3 then min (cur + 2) maxI else cur
        rcases min_cases (cur + 2) maxI with ⟨hm, _⟩ | ⟨hm, _⟩ <;> split <;> split <;> omega
  · obtain ⟨prog, pn, nd, nf, ts⟩ := data
    rcases prog with _ | cp
    · rcases lp with _ | l
      · exact ⟨rfl, rfl⟩
      · exact ⟨rfl, rfl⟩
    · rcases lp with _ | l
      · exact ⟨rfl, rfl⟩
      · rcases h with h | h <;> simp at h
  · obtain ⟨prog, pn, nd, nf, ts⟩ := data
    rcases prog with _ | cp
    · rcases lp with _ | l
      · exact ⟨hmin, hmax⟩
      · exact ⟨hmin, hmax⟩
    · rcases lp with _ | l
      · exact ⟨hmin, hmax⟩
      · rw [updatePollingIntervalAsync_some_eq]
        by_cases hP : cp > l ∨ (pn ≥ 0 ∧ pn > l)
        · rw [if_pos hP]
          constructor
          · show minI ≤ if cur > minI then minI else cur
            split <;> omega
          · show (if cur > minI then minI else cur) ≤ maxI
            split <;> omega
        · rw [if_neg hP]
          constructor
          · show minI ≤ if npc + 1 ≥ 3 ∧ cur < maxI then min (cur + 2) maxI else cur
            rcases min_cases (cur + 2) maxI with ⟨hm, _⟩ | ⟨hm, _⟩ <;> split <;> omega
          · show (if npc + 1 ≥ 3 ∧ cur < maxI then min (cur + 2) maxI else cur) ≤ maxI
            rcases min_cases (cur + 2) maxI with ⟨hm, _⟩ | ⟨hm, _⟩ <;> split <;> omega

/-- Witness for `updatePollingInterval_amended`: evaluation at concrete inputs
for the helper and for the inline async variant. -/
theorem updatePollingInterval_amended_witness :
    (2 : ℤ) ≤ 4 ∧ (4 : ℤ) ≤ 10 ∧
    (progressDetected (StatusData.mk (some 5) 5 0 0 0) (some 3) none none none = true →
      (updatePollingInterval (StatusData.mk (some 5) 5 0 0 0) 4 2 10 (some 3) 1
          none none none).1 = 2 ∧
      (updatePollingInterval (StatusData.mk (some 5) 5 0 0 0) 4 2 10 (some 3) 1
          none none none).2.2 = 0) ∧
    (asyncProgressDetected (StatusData.mk (some 5) 5 0 0 0) (some 3) = true →
      (updatePollingIntervalAsync (StatusData.mk (some 5) 5 0 0 0) 4 2 10
          (some 3) 1).1 = 2 ∧
      (updatePollingIntervalAsync (StatusData.mk (some 5) 5 0 0 0) 4 2 10
          (some 3) 1).2.2 = 0) := by
  refine ⟨by decide, by decide, ?_, ?_⟩
  · exact (updatePollingInterval_amended (StatusData.mk (some 5) 5 0 0 0) 4 2 10
      (some 3) 1 none none none (by decide) (by decide)).1
  · exact (updatePollingInterval_amended (StatusData.mk (some 5) 5 0 0 0) 4 2 10
      (some 3) 1 none none none (by decide) (by decide)).2.2.2.1

/-! ## `SynologyAPI._api_call` (explore_syno_api.py lines 451–582)

```python
max_retries = 2 if retry_on_error else 1
for attempt in range(max_retries):
    try:
        response = self.session.get(url, params=params, timeout=60)
        response.raise_for_status()
        data = response.json()
        if not data.get("success"):
            error_code = data.get("error", {}).get("code", "unknown")
            if error_code in [400, 401, 403, 404]:
                return None
            if error_code in [429, 503] and attempt < max_retries - 1:
                base_wait_time = int(retry_after) if Retry-After parses else (attempt+1)*2
                time.sleep(base_wait_time + jitter); continue
        return data
    except requests.exceptions.Timeout:
        if attempt < max_retries - 1: sleep(2 + jitter); continue
        return None
    except requests.exceptions.RequestException:
        if attempt < max_retries - 1: sleep(1 + jitter); continue
        return None
return None
```
-/

/-- Parsed JSON body of a poll-level HTTP response together with the
`Retry-After` header: `some (some n)` — header present and parses as an integer,
`some none` — present but unparseable, `none` — absent.  `errorCode = none`
models a missing `error.code` (Python's `"unknown"`). -/
structure HttpResp where
  success : Bool
  errorCode : Option ℤ
  retryAfter : Option (Option ℤ)
  deriving DecidableEq, Repr

/-- Outcome of one `self.session.get(...)` attempt.  `raise_for_status` failures
and JSON decoding failures raise `RequestException` subclasses and are covered by
`reqError`. -/
inductive AttemptOutcome where
  | httpOk (resp : HttpResp)
  | timeout
  | reqError
  deriving DecidableEq, Repr

/-- Base backoff recorded before a retry (the random 10–20 % jitter is additive
and does not change the base value). -/
inductive WaitBase where
  | rateLimit (base : ℤ)
  | timeoutWait
  | errorWait
  deriving DecidableEq, Repr

/-- The retry loop of `_api_call`, driven by an oracle giving each attempt's
outcome.  Returns the value produced (`none` = Python `None`), the number of
HTTP attempts performed, and the recorded backoffs. -/
def apiCallGo (oracle : ℕ → AttemptOutcome) (max_retries : ℕ) :
    ℕ → ℕ → List WaitBase → Option HttpResp × ℕ × List WaitBase
  | 0, attempt, waits => (none, attempt, waits)
  | fuel + 1, attempt, waits =>
    match oracle attempt with
    | .httpOk resp =>
      if resp.success then (some resp, attempt + 1, waits)
      else if resp.errorCode = some 400 ∨ resp.errorCode = some 401 ∨
          resp.errorCode = some 403 ∨ resp.errorCode = some 404 then
        (none, attempt + 1, waits)
      else if (resp.errorCode = some 429 ∨ resp.errorCode = some 503) ∧
          attempt < max_retries - 1 then
        let base : ℤ :=
          match resp.retryAfter with
          | some (some n) => n
          | some none => (attempt + 1) * 2
          | none => (attempt + 1) * 2
        apiCallGo oracle max_retries fuel (attempt + 1) (waits ++ [.rateLimit base])
      else (some resp, attempt + 1, waits)
    | .timeout =>
      if attempt < max_retries - 1 then
        apiCallGo oracle max_retries fuel (attempt + 1) (waits ++ [.timeoutWait])
      else (none, attempt + 1, waits)
    | .reqError =>
      if attempt < max_retries - 1 then
        apiCallGo oracle max_retries fuel (attempt + 1) (waits ++ [.errorWait])
      else (none, attempt + 1, waits)

/-- `_api_call` with `retry_on_error` as in the source: `max_retries = 2 if
retry_on_error else 1`. -/
def apiCall (oracle : ℕ → AttemptOutcome) (retry_on_error : Bool) :
    Option HttpResp × ℕ × List WaitBase :=
  let max_retries := if retry_on_error then 2 else 1
  apiCallGo oracle max_retries max_retries 0 []

theorem apiCallGo_attempts_le (oracle : ℕ → AttemptOutcome) (max_retries : ℕ) :
    ∀ fuel attempt waits,
      (apiCallGo oracle max_retries fuel attempt waits).2.1 ≤ attempt + fuel := by
  intro fuel
  induction fuel with
  | zero => intro attempt waits; simp [apiCallGo]
  | succ n ih =>
    intro attempt waits
    simp only [apiCallGo]
    repeat' split
    all_goals first
      | exact le_trans (ih (attempt + 1) _) (by omega)
      | (show attempt + 1 ≤ attempt + (n + 1); omega)

/-- C5: for every API call, (a) at most two HTTP attempts are made — so at most
one retry is performed, within the claimed bound of two retries — for every
outcome sequence, including persistent 429/503 responses and transport timeouts;
(b) on error codes 400/401/403/404 the failure is returned immediately after a
single attempt with no backoff (never retried); (c) when a 429/503 response is
retried and the `Retry-After` header is present and parseable, the recorded base
backoff equals the header value. -/
theorem apiCall_retry_policy :
    (∀ (oracle : ℕ → AttemptOutcome) (r : Bool), (apiCall oracle r).2.1 ≤ 2) ∧
    (∀ (oracle : ℕ → AttemptOutcome) (resp : HttpResp),
      oracle 0 = .httpOk resp → resp.success = false →
      (resp.errorCode = some 400 ∨ resp.errorCode = some 401 ∨
        resp.errorCode = some 403 ∨ resp.errorCode = some 404) →
      apiCall oracle true = (none, 1, [])) ∧
    (∀ (oracle : ℕ → AttemptOutcome) (resp : HttpResp) (n : ℤ),
      oracle 0 = .httpOk resp → resp.success = false →
      (resp.errorCode = some 429 ∨ resp.errorCode = some 503) →
      resp.retryAfter = some (some n) →
      (apiCall oracle true).2.2 = [WaitBase.rateLimit n]) := by
  refine ⟨?_, ?_, ?_⟩
  · intro oracle r
    cases r
    · calc (apiCall oracle false).2.1 ≤ 0 + 1 := by
            simpa [apiCall] using apiCallGo_attempts_le oracle 1 1 0 []
        _ ≤ 2 := by omega
    · simpa [apiCall] using apiCallGo_attempts_le oracle 2 2 0 []
  · intro oracle resp h0 hs hc
    rcases hc with h | h | h | h <;>
      simp [apiCall, apiCallGo, h0, hs, h]
  · intro oracle resp n h0 hs hc hra
    have hgo : apiCall oracle true = apiCallGo oracle 2 1 1 [WaitBase.rateLimit n] := by
      rcases hc with h | h <;> simp [apiCall, apiCallGo, h0, hs, h, hra]
    rw [hgo]
    rcases h1 : oracle 1 with r2 | _ | _ <;>
      simp only [apiCallGo, h1] <;> repeat' split <;>
      first
        | rfl
        | (exfalso; omega)
        | simp_all

/-- Witness for `apiCall_retry_policy`: a first attempt answering with error code
404 yields an immediate `None` after exactly one attempt. -/
theorem apiCall_retry_policy_witness :
    apiCall (fun _ => .httpOk ⟨false, some 404, none⟩) true = (none, 1, []) :=
  apiCall_retry_policy.2.1 (fun _ => .httpOk ⟨false, some 404, none⟩)
    ⟨false, some 404, none⟩ rfl rfl (Or.inr (Or.inr (Or.inr rfl)))

/-! ## Scan data model (app/models/scan.py) and `ScannerService.run_scan`
(app/services/scanner.py lines 156–449) -/

/-- Python `datetime`: seconds since epoch plus the microsecond component
(`timestamp.replace(microsecond=0)` clears the latter). -/
structure Timestamp where
  sec : ℤ
  micro : ℕ
  deriving DecidableEq, Repr

/-- `datetime.isoformat()` of the full timestamp (injective in `(sec, micro)`). -/
def Timestamp.isoFull (t : Timestamp) : String :=
  toString t.sec ++ "." ++ toString t.micro

/-- `timestamp.replace(microsecond=0).isoformat()` as used by
`_generate_primary_key`. -/
def Timestamp.isoSeconds (t : Timestamp) : String :=
  toString t.sec

/-! ISO-8601 text (the format of the `timestamp` TEXT column) compares
lexicographically exactly as the underlying instants compare chronologically,
so the column's SQL ordering is embedded as the chronological order on
`Timestamp`. -/

instance : LT Timestamp :=
  ⟨fun a b => a.sec < b.sec ∨ (a.sec = b.sec ∧ a.micro < b.micro)⟩

instance : LE Timestamp :=
  ⟨fun a b => a.sec < b.sec ∨ (a.sec = b.sec ∧ a.micro ≤ b.micro)⟩

instance : DecidableRel (· < · : Timestamp → Timestamp → Prop) :=
  fun _ _ => inferInstanceAs (Decidable (_ ∨ _))

instance : DecidableRel (· ≤ · : Timestamp → Timestamp → Prop) :=
  fun _ _ => inferInstanceAs (Decidable (_ ∨ _))

theorem Timestamp.lt_def (a b : Timestamp) :
    a < b ↔ a.sec < b.sec ∨ (a.sec = b.sec ∧ a.micro < b.micro) := Iff.rfl

theorem Timestamp.le_def (a b : Timestamp) :
    a ≤ b ↔ a.sec < b.sec ∨ (a.sec = b.sec ∧ a.micro ≤ b.micro) := Iff.rfl

instance : LinearOrder Timestamp where
  le_refl a := Or.inr ⟨rfl, le_refl _⟩
  le_trans a b c hab hbc := by
    rw [Timestamp.le_def] at *
    omega
  le_antisymm a b hab hba := by
    rw [Timestamp.le_def] at hab hba
    cases a
    cases b
    simp only [Timestamp.mk.injEq]
    simp only at hab hba
    omega
  le_total a b := by
    rw [Timestamp.le_def, Timestamp.le_def]
    omega
  lt_iff_le_not_le a b := by
    rw [Timestamp.lt_def, Timestamp.le_def, Timestamp.le_def]
    omega
  decidableLE := inferInstance
  decidableLT := inferInstance
  decidableEq := inferInstance

/-- Python `round(q, 2)` (the half-to-even tie detail is immaterial here). -/
def roundTwo (q : ℚ) : ℚ := (Int.floor (q * 100 + 1/2) : ℚ) / 100

/-- `SynologyAPI._format_size_with_unit` (explore_syno_api.py lines 1415–1433). -/
def formatSizeGo (original : ℤ) : List String → ℚ → ℤ × ℚ × String
  | [], size => (original, roundTwo size, "EB")
  | u :: rest, size =>
    if size < 1024 then (original, roundTwo size, u)
    else formatSizeGo original rest (size / 1024)

def formatSizeWithUnit (size_bytes : ℤ) : ℤ × ℚ × String :=
  formatSizeGo size_bytes ["B", "KB", "MB", "GB", "TB", "PB"] (size_bytes : ℚ)

structure TotalSize where
  bytes : ℤ
  formatted : ℚ
  unit : String
  deriving DecidableEq, Repr

structure ScanResultItem where
  folder_name : String
  success : Bool
  num_dir : Option ℤ := none
  num_file : Option ℤ := none
  total_size : Option TotalSize := none
  elapsed_time_ms : Option ℤ := none
  error : Option String := none
  deriving DecidableEq, Repr

structure ScanResult where
  scan_slug : String
  scan_name : String
  timestamp : Timestamp
  status : String
  results : List ScanResultItem
  error : Option String := none
  deriving DecidableEq, Repr

/-- Result dictionary returned by `get_dir_size_async` for one path. -/
structure DirSizeRes where
  num_dir : ℤ
  num_file : ℤ
  total_size : ℤ
  elapsed_time : ℚ
  deriving DecidableEq, Repr

/-- Python `int(round(q))` (half-to-even detail immaterial here). -/
def roundToInt (q : ℚ) : ℤ := Int.floor (q + 1/2)

/-- The `ScanResultItem` built for one path inside the `run_scan` loop:
a `none` outcome (no result, or a raised per-path exception) yields a failed
item; a result dictionary yields a successful item. -/
def runScanItem (p : String) (res : Option DirSizeRes) : ScanResultItem :=
  match res with
  | none =>
    { folder_name := p, success := false,
      error := some "Scan fehlgeschlagen - keine Ergebnisse erhalten" }
  | some r =>
    let info := formatSizeWithUnit r.total_size
    { folder_name := p, success := true,
      num_dir := some r.num_dir, num_file := some r.num_file,
      total_size := some ⟨info.1, info.2.1, info.2.2⟩,
      elapsed_time_ms := some (roundToInt (r.elapsed_time * 1000)) }

/-- `ScannerService.run_scan`, with the external effects abstracted into inputs:
`is_running` — result of `self.is_scan_running(scan_slug)`; `login_ok` — result
of `api.login(...)`; `paths` — result of `self._determine_paths(scan_config)`;
`outcome i` — result of `api.get_dir_size_async` for the `i`-th path (`none`
covers both a `None` return and a raised per-path exception, which likewise
produces a failed item). -/
def runScan (slug name : String) (ts : Timestamp) (is_running login_ok : Bool)
    (paths : List String) (outcome : ℕ → Option DirSizeRes) : ScanResult :=
  if is_running then
    { scan_slug := slug, scan_name := name, timestamp := ts,
      status := "running", results := [] }
  else if !login_ok then
    { scan_slug := slug, scan_name := name, timestamp := ts,
      status := "failed", results := [], error := some "Login fehlgeschlagen" }
  else if paths = [] then
    { scan_slug := slug, scan_name := name, timestamp := ts, status := "failed",
      results := [], error := some "Kein gültiger Pfad in Konfiguration gefunden" }
  else
    let result_items := (List.range paths.length).map fun i =>
      runScanItem (paths.getD i "") (outcome i)
    let successful := (result_items.filter (·.success)).length
    if successful = 0 then
      { scan_slug := slug, scan_name := name, timestamp := ts, status := "failed",
        results := result_items,
        error := some "Alle Pfade fehlgeschlagen - keine erfolgreichen Ergebnisse" }
    else
      { scan_slug := slug, scan_name := name, timestamp := ts,
        status := "completed", results := result_items }

/-- C6: every finished scan execution (one that was not skipped as already
running) has status "completed" exactly when at least one of its items has
`success = true`, and status "failed" exactly when zero items succeeded. -/
theorem runScan_status_spec (slug name : String) (ts : Timestamp) (login_ok : Bool)
    (paths : List String) (outcome : ℕ → Option DirSizeRes) :
    ((runScan slug name ts false login_ok paths outcome).status = "completed" ↔
      (runScan slug name ts false login_ok paths outcome).results.any (·.success)) ∧
    ((runScan slug name ts false login_ok paths outcome).status = "failed" ↔
      ¬ (runScan slug name ts false login_ok paths outcome).results.any (·.success)) := by
  unfold runScan
  simp only [if_false, Bool.false_eq_true]
  cases login_ok with
  | false => simp
  | true =>
    simp only [Bool.not_true, Bool.false_eq_true, if_false]
    by_cases hp : paths = []
    · simp [hp]
    · simp only [hp, if_false]
      set items := (List.range paths.length).map fun i =>
        runScanItem (paths.getD i "") (outcome i) with hitems
      by_cases hz : (items.filter (·.success)).length = 0
      · have hany : items.any (·.success) = false := by
          rw [List.length_eq_zero] at hz
          rw [List.any_eq_false]
          intro a ha
          have := List.filter_eq_nil_iff.mp hz a ha
          simpa using this
        simp [hz, hany]
      · have hfil : items.filter (·.success) ≠ [] := by
          intro h; exact hz (by simp [h])
        obtain ⟨a, ha⟩ := List.exists_mem_of_ne_nil _ hfil
        have hmem := List.mem_filter.mp ha
        have hany : items.any (·.success) = true :=
          List.any_eq_true.mpr ⟨a, hmem.1, by simpa using hmem.2⟩
        simp [hz, hany]
/-! ## `ScanStorage` (app/services/storage.py)

The `scan_results` SQLite table is embedded as a list of rows; `INSERT OR
REPLACE` removes every row conflicting on the `id` PRIMARY KEY or on the
`UNIQUE(nas_host, folder_path, timestamp)` constraint and inserts the new row. -/

/-- `_normalize_folder_path` (storage.py lines 74–86):
`folder_path.strip().lstrip('/')`. -/
def pyStrip (l : List Char) : List Char :=
  ((l.dropWhile Char.isWhitespace).reverse.dropWhile Char.isWhitespace).reverse

def normalizeFolderPath (s : String) : String :=
  ⟨(pyStrip s.data).dropWhile (· = '/')⟩

/-- `_generate_primary_key` (storage.py lines 88–112).  The source hashes
`key_string` with SHA-256 and keeps 16 hex chars; the hash is a deterministic
function of `key_string`, which is all that matters here, so the key string
itself stands in for its digest. -/
def generatePrimaryKey (nas_host folder_path : String) (ts : Timestamp) : String :=
  nas_host ++ "::" ++ normalizeFolderPath folder_path ++ "::" ++ ts.isoSeconds

/-- One row of the `scan_results` table (storage.py lines 122–144). -/
structure Row where
  id : String
  nas_host : String
  folder_path : String
  scan_slug : String
  scan_name : String
  timestamp : Timestamp       -- the isoformat TEXT column, in chronological order
  status : String
  success : Bool
  num_dir : Option ℤ
  num_file : Option ℤ
  total_size_bytes : Option ℤ
  total_size_formatted : Option ℚ
  total_size_unit : Option String
  elapsed_time_ms : Option ℤ
  error : Option String
  scan_error : Option String
  created_at : String
  updated_at : String
  deriving DecidableEq, Repr

/-- Conflict under `INSERT OR REPLACE`: the existing row `x` collides with the
new row `r` on the PRIMARY KEY `id` or on `UNIQUE(nas_host, folder_path,
timestamp)`. -/
def conflictB (r x : Row) : Bool :=
  x.id == r.id ||
    (x.nas_host == r.nas_host && x.folder_path == r.folder_path &&
      x.timestamp == r.timestamp)

/-- `INSERT OR REPLACE`: delete all conflicting rows, insert the new one. -/
def insertOrReplace (r : Row) (tbl : List Row) : List Row :=
  r :: tbl.filter (fun x => !conflictB r x)

def upsertAll (rows : List Row) (tbl : List Row) : List Row :=
  rows.foldl (fun t r => insertOrReplace r t) tbl

/-- The row `_save_to_disk` builds for one successful item (storage.py
lines 370–406). -/
def itemRow (scan_slug scan_name nas_host : String) (result : ScanResult)
    (now_iso : String) (item : ScanResultItem) : Row :=
  let normalized_path := normalizeFolderPath item.folder_name
  { id := generatePrimaryKey nas_host normalized_path result.timestamp
    nas_host := nas_host
    folder_path := normalized_path
    scan_slug := scan_slug
    scan_name := scan_name
    timestamp := result.timestamp
    status := result.status
    success := item.success
    num_dir := item.num_dir
    num_file := item.num_file
    total_size_bytes := item.total_size.map (·.bytes)
    total_size_formatted := item.total_size.map (·.formatted)
    total_size_unit := item.total_size.map (·.unit)
    elapsed_time_ms := item.elapsed_time_ms
    error := item.error
    scan_error := result.error
    created_at := now_iso            -- DEFAULT CURRENT_TIMESTAMP on (re)insert
    updated_at := now_iso }

/-- The sentinel row `_save_to_disk` writes when no item succeeded (storage.py
lines 410–448). -/
def markerRow (scan_slug scan_name nas_host : String) (result : ScanResult)
    (now_iso : String) : Row :=
  { id := generatePrimaryKey nas_host "__SCAN_STATUS_MARKER__" result.timestamp
    nas_host := nas_host
    folder_path := "__SCAN_STATUS_MARKER__"
    scan_slug := scan_slug
    scan_name := scan_name
    timestamp := result.timestamp
    status := result.status
    success := false
    num_dir := none
    num_file := none
    total_size_bytes := none
    total_size_formatted := none
    total_size_unit := none
    elapsed_time_ms := none
    error := none
    scan_error := result.error
    created_at := now_iso
    updated_at := now_iso }

/-- The rows one `_save_to_disk` call upserts: one row per successful item, or
the single sentinel row when no item succeeded. -/
def saveRows (scan_slug scan_name : String) (result : ScanResult)
    (nas_host now_iso : String) : List Row :=
  let successful_items := result.results.filter (·.success)
  if successful_items.isEmpty then [markerRow scan_slug scan_name nas_host result now_iso]
  else successful_items.map (itemRow scan_slug scan_name nas_host result now_iso)

/-- Timestamps currently stored for a slug. -/
def slugTimestamps (scan_slug : String) (tbl : List Row) : Finset Timestamp :=
  ((tbl.filter (fun r => r.scan_slug == scan_slug)).map (·.timestamp)).toFinset

/-- Number of stored timestamps strictly newer than `t`. -/
def rankIn {α : Type} [LinearOrder α] (D : Finset α) (t : α) : ℕ :=
  (D.filter (fun u => t < u)).card

/-- Membership in the retention subselect
`SELECT DISTINCT timestamp … ORDER BY timestamp DESC LIMIT max_history`:
`t` is selected iff it is stored and fewer than `max_history` distinct stored
timestamps are strictly greater (the elements up to index `max_history` of a
descending duplicate-free list are exactly those). -/
def topKept {α : Type} [LinearOrder α] [DecidableEq α] (k : ℕ) (D : Finset α)
    (t : α) : Prop :=
  t ∈ D ∧ rankIn D t < k

instance {α : Type} [LinearOrder α] [DecidableEq α] (k : ℕ) (D : Finset α) (t : α) :
    Decidable (topKept k D t) :=
  inferInstanceAs (Decidable (_ ∧ _))

/-- The pruning `DELETE` at the end of `_save_to_disk` (storage.py
lines 450–460): rows of the slug whose timestamp is not among the newest
`max_history` distinct timestamps are removed. -/
def pruneHistory (scan_slug : String) (max_history : ℕ) (tbl : List Row) : List Row :=
  tbl.filter fun r =>
    !(r.scan_slug == scan_slug) ||
      decide (topKept max_history (slugTimestamps scan_slug tbl) r.timestamp)

/-- `_save_to_disk` (storage.py lines 353–465): upsert the rows, then prune. -/
def saveToDisk (scan_slug scan_name : String) (result : ScanResult)
    (nas_host now_iso : String) (max_history : ℕ) (tbl : List Row) : List Row :=
  pruneHistory scan_slug max_history
    (upsertAll (saveRows scan_slug scan_name result nas_host now_iso) tbl)

/-- The in-memory `_results` map plus the SQLite table. -/
structure StorageState where
  results : List (String × List ScanResult)
  table : List Row
  deriving Repr

/-- Read of the `_results` dict (`defaultdict(list)` semantics). -/
def memLookup (m : List (String × List ScanResult)) (slug : String) : List ScanResult :=
  match m.find? (fun p => p.1 == slug) with
  | some p => p.2
  | none => []

/-- Write-back of a slug's list into the `_results` dict. -/
def memStore (m : List (String × List ScanResult)) (slug : String)
    (v : List ScanResult) : List (String × List ScanResult) :=
  if m.any (fun p => p.1 == slug) then
    m.map (fun p => if p.1 == slug then (p.1, v) else p)
  else m ++ [(slug, v)]

/-- `add_result` (storage.py lines 467–483): append to the in-memory list, cap
it at `max_history` newest entries (`self._results[slug][-max_history:]`), then
`_save_to_disk`. -/
def addResult (scan_slug scan_name : String) (result : ScanResult)
    (nas_host now_iso : String) (max_history : ℕ) (st : StorageState) : StorageState :=
  let lst := memLookup st.results scan_slug ++ [result]
  let lst := if lst.length > max_history then lst.drop (lst.length - max_history) else lst
  { results := memStore st.results scan_slug lst
    table := saveToDisk scan_slug scan_name result nas_host now_iso max_history st.table }

/-! ### Retention-rank combinatorics

`topKept` selects the `max_history` largest elements of the stored timestamp
set; the lemmas below show that re-running the retention step on a state whose
slug-timestamps are already pruned (plus the freshly re-upserted timestamp)
selects the same set. -/

theorem rankIn_lt_of_lt {α : Type} [LinearOrder α] [DecidableEq α] {D : Finset α} {t u : α} (hu : u ∈ D) (h : t < u) :
    rankIn D u < rankIn D t := by
  have hsub : D.filter (fun v => u < v) ⊆ D.filter (fun v => t < v) := by
    intro v hv
    rw [Finset.mem_filter] at hv ⊢
    exact ⟨hv.1, lt_trans h hv.2⟩
  apply Finset.card_lt_card
  rw [Finset.ssubset_iff_of_subset hsub]
  refine ⟨u, Finset.mem_filter.mpr ⟨hu, h⟩, ?_⟩
  simp [Finset.mem_filter]

theorem rankIn_injOn {α : Type} [LinearOrder α] [DecidableEq α] (D : Finset α) :
    ∀ t ∈ D, ∀ u ∈ D, rankIn D t = rankIn D u → t = u := by
  intro t ht u hu h
  rcases lt_trichotomy t u with hlt | he | hgt
  · have := rankIn_lt_of_lt hu hlt; omega
  · exact he
  · have := rankIn_lt_of_lt ht hgt; omega

theorem rankIn_lt_card {α : Type} [LinearOrder α] [DecidableEq α] {D : Finset α} {t : α} (ht : t ∈ D) :
    rankIn D t < D.card := by
  have hsub : D.filter (fun v => t < v) ⊆ D.erase t := by
    intro v hv
    rw [Finset.mem_filter] at hv
    rw [Finset.mem_erase]
    refine ⟨?_, hv.1⟩
    rintro rfl
    exact lt_irrefl _ hv.2
  have h1 : rankIn D t ≤ (D.erase t).card := Finset.card_le_card hsub
  have h2 := Finset.card_erase_of_mem ht
  have h3 : 0 < D.card := Finset.card_pos.mpr ⟨t, ht⟩
  omega

theorem rankIn_image {α : Type} [LinearOrder α] [DecidableEq α] (D : Finset α) :
    D.image (rankIn D) = Finset.range D.card := by
  apply Finset.eq_of_subset_of_card_le
  · intro n hn
    rw [Finset.mem_image] at hn
    obtain ⟨t, ht, rfl⟩ := hn
    exact Finset.mem_range.mpr (rankIn_lt_card ht)
  · rw [Finset.card_range, Finset.card_image_of_injOn (rankIn_injOn D)]

theorem card_rank_lt {α : Type} [LinearOrder α] [DecidableEq α] (k : ℕ) (D : Finset α) :
    (D.filter (fun t => rankIn D t < k)).card = min k D.card := by
  have hinj : ∀ t ∈ D.filter (fun t => rankIn D t < k),
      ∀ u ∈ D.filter (fun t => rankIn D t < k), rankIn D t = rankIn D u → t = u :=
    fun t ht u hu =>
      rankIn_injOn D t (Finset.mem_filter.mp ht).1 u (Finset.mem_filter.mp hu).1
  have himg : (D.filter (fun t => rankIn D t < k)).image (rankIn D)
      = (D.image (rankIn D)).filter (fun n => n < k) := by
    ext n
    simp only [Finset.mem_filter, Finset.mem_image]
    constructor
    · rintro ⟨t, ⟨ht, hk⟩, rfl⟩
      exact ⟨⟨t, ht, rfl⟩, hk⟩
    · rintro ⟨⟨t, ht, rfl⟩, hk⟩
      exact ⟨t, ⟨ht, hk⟩, rfl⟩
  calc (D.filter (fun t => rankIn D t < k)).card
      = ((D.filter (fun t => rankIn D t < k)).image (rankIn D)).card :=
        (Finset.card_image_of_injOn hinj).symm
    _ = ((D.image (rankIn D)).filter (fun n => n < k)).card := by rw [himg]
    _ = ((Finset.range D.card).filter (fun n => n < k)).card := by rw [rankIn_image]
    _ = min k D.card := by
        have hr : (Finset.range D.card).filter (fun n => n < k)
            = Finset.range (min k D.card) := by
          ext n
          simp only [Finset.mem_filter, Finset.mem_range]
          omega
        rw [hr, Finset.card_range]

/-- Re-selecting the top `k` timestamps from the already-selected set (plus the
re-upserted timestamp `τ`, which is an element of the original set) selects the
same timestamps. -/
theorem topKept_stable {α : Type} [LinearOrder α] [DecidableEq α] (k : ℕ) (τ : α) (T : Finset α) (t : α) :
    topKept k (insert τ (T.filter (fun u => topKept k (insert τ T) u))) t ↔
      topKept k (insert τ T) t := by
  set D := insert τ T with hD
  set Dn := insert τ (T.filter (fun u => topKept k D u)) with hDn
  have hsub : Dn ⊆ D := by
    rw [hDn, hD]
    intro x hx
    rcases Finset.mem_insert.mp hx with rfl | hx
    · exact Finset.mem_insert_self _ _
    · exact Finset.mem_insert_of_mem (Finset.mem_of_mem_filter _ hx)
  have hback : ∀ u ∈ D, topKept k D u → u ∈ Dn := by
    intro u hu hku
    rcases Finset.mem_insert.mp hu with rfl | hu
    · exact Finset.mem_insert_self _ _
    · exact Finset.mem_insert_of_mem (Finset.mem_filter.mpr ⟨hu, hku⟩)
  constructor
  · rintro ⟨htDn, hrk⟩
    have htD : t ∈ D := hsub htDn
    refine ⟨htD, ?_⟩
    by_contra hge
    push_neg at hge
    -- `t` survived the first pruning or is the re-upserted timestamp.
    have ht : t = τ := by
      rcases Finset.mem_insert.mp htDn with rfl | htf
    -- (when `t` came from the filtered set its rank was < k, contradiction)
      · rfl
      · exact absurd (Finset.mem_filter.mp htf).2.2 (by omega)
    subst ht
    -- all top-k elements of D are > τ and lie in Dn, so τ keeps rank ≥ k in Dn
    have hA : D.filter (fun u => rankIn D u < k) ⊆ Dn.filter (fun v => t < v) := by
      intro u hu
      rw [Finset.mem_filter] at hu
      rw [Finset.mem_filter]
      refine ⟨hback u hu.1 ⟨hu.1, hu.2⟩, ?_⟩
      rcases lt_trichotomy t u with hlt | he | hgt
      · exact hlt
      · exact absurd hu.2 (by rw [← he]; omega)
      · have hmono : D.filter (fun v => t < v) ⊆ D.filter (fun v => u < v) := by
          intro v hv
          rw [Finset.mem_filter] at hv ⊢
          exact ⟨hv.1, lt_trans hgt hv.2⟩
        have := Finset.card_le_card hmono
        have : rankIn D t ≤ rankIn D u := this
        omega
    have hcard := Finset.card_le_card hA
    rw [card_rank_lt] at hcard
    have hlt := rankIn_lt_card (hsub htDn)
    have : min k D.card = k := by omega
    rw [this] at hcard
    have : rankIn Dn t < k := hrk
    unfold rankIn at this
    omega
  · rintro ⟨htD, hrk⟩
    refine ⟨hback t htD ⟨htD, hrk⟩, ?_⟩
    have : Dn.filter (fun v => t < v) ⊆ D.filter (fun v => t < v) :=
      Finset.filter_subset_filter _ hsub
    have := Finset.card_le_card this
    unfold rankIn at *
    omega

/-! ### Upsert decomposition lemmas -/

theorem insertOrReplace_nil (r : Row) : insertOrReplace r [] = [r] := rfl

theorem upsertAll_cons (r : Row) (L X : List Row) :
    upsertAll (r :: L) X = upsertAll L (insertOrReplace r X) := rfl

theorem conflictB_self (r : Row) : conflictB r r = true := by
  simp [conflictB]

/-- Every row produced by a sequence of upserts into the empty table is one of
the upserted rows. -/
theorem mem_upsertAll (L : List Row) : ∀ X x, x ∈ upsertAll L X → x ∈ L ∨ x ∈ X := by
  induction L with
  | nil => intro X x h; exact Or.inr h
  | cons r L ih =>
    intro X x h
    rw [upsertAll_cons] at h
    rcases ih _ x h with hL | hX
    · exact Or.inl (List.mem_cons_of_mem _ hL)
    · rcases List.mem_cons.mp hX with rfl | hf
      · exact Or.inl (List.mem_cons_self _ _)
      · exact Or.inr (List.mem_of_mem_filter hf)

theorem upsertAll_ne_nil (L : List Row) (hL : L ≠ []) : ∀ X, upsertAll L X ≠ [] := by
  induction L with
  | nil => cases hL rfl
  | cons r L ih =>
    intro X
    by_cases h : L = []
    · subst h
      rw [upsertAll_cons]
      simp [upsertAll, insertOrReplace]
    · rw [upsertAll_cons]
      exact ih h _

/-- A sequence of upserts splits into the freshly built rows followed by the
prior rows that conflict with none of the upserted ones. -/
theorem upsertAll_split (L : List Row) : ∀ X : List Row,
    upsertAll L X = upsertAll L [] ++
      X.filter (fun x => L.all (fun r => !conflictB r x)) := by
  induction L with
  | nil => intro X; simp [upsertAll]
  | cons r L ih =>
    intro X
    rw [upsertAll_cons, ih, upsertAll_cons, insertOrReplace_nil, ih [r],
      insertOrReplace]
    rw [List.append_assoc, List.filter_cons, List.filter_filter]
    by_cases hr : (L.all fun r2 => !conflictB r2 r) = true
    · have h1 : List.filter (fun x => L.all fun r => !conflictB r x) [r] = [r] := by
        simp [hr]
      have hfil : List.filter (fun a => (L.all fun r => !conflictB r a) && !conflictB r a) X
          = List.filter (fun x => (r :: L).all fun r => !conflictB r x) X := by
        apply List.filter_congr
        intro x _
        simp [List.all_cons, Bool.and_comm]
      rw [h1, List.singleton_append]
      simp only [hr, if_true]
      rw [hfil]
    · have hr2 : (L.all fun r2 => !conflictB r2 r) = false := by
        simpa using hr
      have h1 : List.filter (fun x => L.all fun r => !conflictB r x) [r] = [] := by
        simp [hr2]
      have hfil : List.filter (fun a => (L.all fun r => !conflictB r a) && !conflictB r a) X
          = List.filter (fun x => (r :: L).all fun r => !conflictB r x) X := by
        apply List.filter_congr
        intro x _
        simp [List.all_cons, Bool.and_comm]
      rw [h1, List.nil_append]
      simp only [hr2, Bool.false_eq_true, if_false]
      rw [hfil]

/-- Rows that are among the upserted ones never satisfy the
no-conflict-with-any predicate. -/
theorem all_notConflict_false {L : List Row} {x : Row} (hx : x ∈ L) :
    L.all (fun r => !conflictB r x) = false := by
  cases hb : L.all (fun r => !conflictB r x) with
  | false => rfl
  | true =>
    exfalso
    have := (List.all_eq_true.mp hb) x hx
    rw [conflictB_self] at this
    simp at this

theorem filter_all_notConflict_eq_nil {L l : List Row} (h : ∀ x ∈ l, x ∈ L) :
    l.filter (fun x => L.all (fun r => !conflictB r x)) = [] := by
  rw [List.filter_eq_nil_iff]
  intro a ha
  rw [all_notConflict_false (h a ha)]
  simp

/-! ### Idempotence of `_save_to_disk` (claim C7) -/

theorem saveRows_ne_nil (slug name : String) (result : ScanResult) (host now : String) :
    saveRows slug name result host now ≠ [] := by
  by_cases h : (List.filter (fun x => x.success) result.results).isEmpty = true
  · simp [saveRows, h]
  · have h2 : (List.filter (fun x => x.success) result.results).isEmpty = false := by
      simpa using h
    simp only [saveRows, h2, Bool.false_eq_true, if_false, ne_eq, List.map_eq_nil_iff]
    intro hc
    rw [hc] at h2
    simp at h2

theorem saveRows_fields (slug name : String) (result : ScanResult) (host now : String) :
    ∀ x ∈ saveRows slug name result host now,
      x.scan_slug = slug ∧ x.timestamp = result.timestamp := by
  intro x hx
  simp only [saveRows] at hx
  by_cases h : (List.filter (fun x => x.success) result.results).isEmpty = true
  · rw [h, if_pos rfl, List.mem_singleton] at hx
    subst hx
    exact ⟨rfl, rfl⟩
  · have h2 : (List.filter (fun x => x.success) result.results).isEmpty = false := by
      simpa using h
    rw [h2, if_neg Bool.false_ne_true] at hx
    obtain ⟨item, hitem, rfl⟩ := List.mem_map.mp hx
    exact ⟨rfl, rfl⟩

theorem slugTimestamps_append (s : String) (A B : List Row) :
    slugTimestamps s (A ++ B) = slugTimestamps s A ∪ slugTimestamps s B := by
  unfold slugTimestamps
  rw [List.filter_append, List.map_append, List.toFinset_append]

theorem slugTimestamps_const {s : String} {τ : Timestamp} {P : List Row} (hPne : P ≠ [])
    (h : ∀ x ∈ P, x.scan_slug = s ∧ x.timestamp = τ) :
    slugTimestamps s P = {τ} := by
  unfold slugTimestamps
  ext t
  simp only [List.mem_toFinset, List.mem_map, List.mem_filter, Finset.mem_singleton]
  constructor
  · rintro ⟨r, ⟨hrP, _⟩, rfl⟩
    exact (h r hrP).2
  · rintro rfl
    obtain ⟨x, hx⟩ := List.exists_mem_of_ne_nil P hPne
    exact ⟨x, ⟨hx, by simp [(h x hx).1]⟩, (h x hx).2⟩

theorem slugTimestamps_filter_keep (s : String) (k : ℕ) (D0 : Finset Timestamp)
    (W : List Row) :
    slugTimestamps s (W.filter
        (fun r => !(r.scan_slug == s) || decide (topKept k D0 r.timestamp)))
      = (slugTimestamps s W).filter (fun t => topKept k D0 t) := by
  unfold slugTimestamps
  ext t
  simp only [List.mem_toFinset, List.mem_map, List.mem_filter, Finset.mem_filter]
  constructor
  · rintro ⟨r, ⟨⟨hrW, hq⟩, hrs⟩, rfl⟩
    refine ⟨⟨r, ⟨hrW, hrs⟩, rfl⟩, ?_⟩
    rw [Bool.or_eq_true] at hq
    rcases hq with hneg | hdec
    · rw [hrs] at hneg
      simp at hneg
    · exact of_decide_eq_true hdec
  · rintro ⟨⟨r, ⟨hrW, hrs⟩, rfl⟩, hkeep⟩
    refine ⟨r, ⟨⟨hrW, ?_⟩, hrs⟩, rfl⟩
    rw [Bool.or_eq_true]
    exact Or.inr (decide_eq_true hkeep)

/-- Abstract form of the `_save_to_disk` idempotence: re-running
upsert-then-prune with the same fresh rows (all carrying the same slug and the
same timestamp) leaves the table unchanged. -/
theorem save_prune_idem (R : List Row) (slug : String) (τ : Timestamp) (k : ℕ)
    (hRne : R ≠ [])
    (hfld : ∀ x ∈ R, x.scan_slug = slug ∧ x.timestamp = τ)
    (tbl : List Row) :
    pruneHistory slug k (upsertAll R (pruneHistory slug k (upsertAll R tbl)))
      = pruneHistory slug k (upsertAll R tbl) := by
  set P := upsertAll R [] with hP
  set G : Row → Bool := (fun x => R.all fun r => !conflictB r x) with hG
  set W := tbl.filter G with hWdef
  have hsplit : upsertAll R tbl = P ++ W := upsertAll_split R tbl
  set D := slugTimestamps slug (P ++ W) with hDdef
  set q : Row → Bool :=
    (fun r => !(r.scan_slug == slug) || decide (topKept k D r.timestamp)) with hq
  have hprune1 : pruneHistory slug k (upsertAll R tbl) = (P ++ W).filter q := by
    rw [hsplit]
    rfl
  have hmemP : ∀ x ∈ P, x ∈ R := by
    intro x hx
    rcases mem_upsertAll R [] x hx with h | h
    · exact h
    · cases h
  have hPne : P ≠ [] := upsertAll_ne_nil R hRne []
  have hPfld : ∀ x ∈ P, x.scan_slug = slug ∧ x.timestamp = τ :=
    fun x hx => hfld x (hmemP x hx)
  have hsTP : slugTimestamps slug P = {τ} := slugTimestamps_const hPne hPfld
  set T := slugTimestamps slug W with hT
  have hDins : D = insert τ T := by
    rw [hDdef, slugTimestamps_append, hsTP, ← Finset.insert_eq]
  have hup2 : upsertAll R ((P ++ W).filter q) = P ++ W.filter q := by
    rw [upsertAll_split]
    congr 1
    rw [List.filter_append]
    have h1 : (P.filter q).filter G = [] := by
      rw [hG]
      exact filter_all_notConflict_eq_nil
        (fun x hx => hmemP x (List.mem_of_mem_filter hx))
    have h2 : (W.filter q).filter G = W.filter q := by
      apply List.filter_eq_self.mpr
      intro x hx
      have hxW : x ∈ W := List.mem_of_mem_filter hx
      rw [hWdef] at hxW
      exact List.of_mem_filter hxW
    rw [List.filter_append, h1, h2, List.nil_append]
  have hsT2 : slugTimestamps slug (P ++ W.filter q)
      = insert τ (T.filter (fun t => topKept k D t)) := by
    rw [slugTimestamps_append, hsTP, hq, slugTimestamps_filter_keep, ← hT,
      ← Finset.insert_eq]
  have hqeq : ∀ r : Row,
      (!(r.scan_slug == slug) ||
        decide (topKept k (slugTimestamps slug (P ++ W.filter q)) r.timestamp)) = q r := by
    intro r
    rw [hsT2, hq]
    have hiff := topKept_stable k τ T r.timestamp
    rw [hDins]
    rw [decide_eq_decide.mpr hiff]
  calc pruneHistory slug k (upsertAll R (pruneHistory slug k (upsertAll R tbl)))
      = pruneHistory slug k (upsertAll R ((P ++ W).filter q)) := by rw [hprune1]
    _ = (P ++ W.filter q).filter
          (fun r => !(r.scan_slug == slug) ||
            decide (topKept k (slugTimestamps slug (P ++ W.filter q)) r.timestamp)) := by
        rw [hup2]
        rfl
    _ = (P ++ W.filter q).filter q := by
        apply List.filter_congr
        intro r _
        exact hqeq r
    _ = P.filter q ++ (W.filter q).filter q := List.filter_append _ _
    _ = P.filter q ++ W.filter q := by
        congr 1
        exact List.filter_eq_self.mpr (fun x hx => List.of_mem_filter hx)
    _ = (P ++ W).filter q := (List.filter_append _ _).symm
    _ = pruneHistory slug k (upsertAll R tbl) := hprune1.symm

/-- C7: `add_result` is idempotent on the primary key `(nasHost, folderPath,
timestamp)`: re-executing the same write with identical arguments leaves the
stored table — and hence its row count — unchanged (the `INSERT OR REPLACE`
replaces the rows written by the first execution, and the retention step keeps
the same timestamps). -/
theorem addResult_idempotent (slug name : String) (result : ScanResult)
    (host now : String) (k : ℕ) (st : StorageState) :
    (addResult slug name result host now k
        (addResult slug name result host now k st)).table
      = (addResult slug name result host now k st).table ∧
    (addResult slug name result host now k
        (addResult slug name result host now k st)).table.length
      = (addResult slug name result host now k st).table.length := by
  have hmain : saveToDisk slug name result host now k
      (saveToDisk slug name result host now k st.table)
      = saveToDisk slug name result host now k st.table :=
    save_prune_idem (saveRows slug name result host now) slug
      result.timestamp k
      (saveRows_ne_nil slug name result host now)
      (saveRows_fields slug name result host now) st.table
  constructor
  · show saveToDisk slug name result host now k
        (saveToDisk slug name result host now k st.table)
      = saveToDisk slug name result host now k st.table
    exact hmain
  · show (saveToDisk slug name result host now k
        (saveToDisk slug name result host now k st.table)).length
      = (saveToDisk slug name result host now k st.table).length
    rw [hmain]

/-! ### Claim C3: normalization of persisted folder names -/

/-- C3 counterexample: persisting a scan whose successful item queried
`"/homes/docs/"` stores the folder path `"homes/docs/"` — the leading slash is
stripped rather than guaranteed, and the trailing slash is kept, contradicting
the claimed normal form (leading `/`, no trailing `/`). -/
theorem storage_normalization_cx :
    (saveToDisk "docs" "Docs"
        { scan_slug := "docs", scan_name := "Docs", timestamp := ⟨100, 0⟩,
          status := "completed",
          results := [{ folder_name := "/homes/docs/", success := true,
                        num_dir := some 1, num_file := some 2,
                        total_size := some ⟨3, 3, "B"⟩,
                        elapsed_time_ms := some 5 }] }
        "nas" "2024-01-01" 1000 []).map (·.folder_path) = ["homes/docs/"] ∧
    ¬ "homes/docs/".data.head? = some '/' ∧
    "homes/docs/".data.getLast? = some '/' := by
  refine ⟨?_, by decide, by decide⟩
  decide

theorem head?_dropWhile_slash : ∀ l : List Char,
    (l.dropWhile (fun c => c = '/')).head? ≠ some '/' := by
  intro l
  induction l with
  | nil => simp
  | cons c cs ih =>
    by_cases hc : c = '/'
    · rw [List.dropWhile_cons_of_pos (by simp [hc])]
      exact ih
    · rw [List.dropWhile_cons_of_neg (by simp [hc])]
      simp [hc]

/-- C3 amended: every folder path stored by `_save_to_disk` for a successful
item is `_normalize_folder_path` of the item's queried path — surrounding
whitespace removed and all leading slashes stripped — so a stored path never
starts with `/`; trailing slashes are preserved (the remaining rows are the
`__SCAN_STATUS_MARKER__` sentinel). -/
theorem storage_normalization_amended :
    (∀ s : String, (normalizeFolderPath s).data.head? ≠ some '/') ∧
    (∀ slug name : String, ∀ result : ScanResult, ∀ host now : String,
      ∀ row ∈ saveRows slug name result host now,
        row.folder_path = "__SCAN_STATUS_MARKER__" ∨
        ∃ item ∈ result.results, item.success = true ∧
          row.folder_path = normalizeFolderPath item.folder_name) := by
  constructor
  · intro s
    exact head?_dropWhile_slash (pyStrip s.data)
  · intro slug name result host now row hrow
    simp only [saveRows] at hrow
    by_cases h : (List.filter (fun x => x.success) result.results).isEmpty = true
    · rw [h, if_pos rfl, List.mem_singleton] at hrow
      subst hrow
      exact Or.inl rfl
    · have h2 : (List.filter (fun x => x.success) result.results).isEmpty = false := by
        simpa using h
      rw [h2, if_neg Bool.false_ne_true] at hrow
      obtain ⟨item, hitem, rfl⟩ := List.mem_map.mp hrow
      exact Or.inr ⟨item, List.mem_of_mem_filter hitem, List.of_mem_filter hitem, rfl⟩

/-- A concrete failed scan result used to instantiate
`storage_normalization_amended`. -/
def sampleFailedResult : ScanResult :=
  { scan_slug := "s", scan_name := "n", timestamp := ⟨1, 0⟩,
    status := "failed", results := [] }

/-- Witness for `storage_normalization_amended`: evaluation at a concrete
input. -/
theorem storage_normalization_amended_witness :
    (normalizeFolderPath "/homes/docs/").data.head? ≠ some '/' ∧
    ((markerRow "s" "n" "h" sampleFailedResult "now").folder_path
        = "__SCAN_STATUS_MARKER__" ∨
      ∃ item ∈ sampleFailedResult.results, item.success = true ∧
        (markerRow "s" "n" "h" sampleFailedResult "now").folder_path
          = normalizeFolderPath item.folder_name) :=
  ⟨storage_normalization_amended.1 "/homes/docs/",
    storage_normalization_amended.2 "s" "n" sampleFailedResult "h" "now"
      (markerRow "s" "n" "h" sampleFailedResult "now")
      (by simp [saveRows, sampleFailedResult])⟩

/-! ## Storage construction and loading (claim C10)

`ScanStorage.__init__` (storage.py lines 19–72) runs `_init_database`, then
`_load_from_disk`, then (when enabled) `cleanup_old_results`.
`_init_database` (lines 114–177) executes `DROP TABLE IF EXISTS scan_results`
followed by `CREATE TABLE scan_results (...)` unconditionally. -/

/-- `_init_database`: whatever the database file held, the table is dropped and
recreated empty. -/
def initDatabase (_prior : List Row) : List Row := []

/-- Python truthiness of the `Optional[str]` loop variables. -/
def optStrTruthy : Option String → Bool
  | some s => s ≠ ""
  | none => false

/-- The `ScanResultItem` rebuilt from a row in `_load_from_disk`
(storage.py lines 306–324). -/
def loadRowItem (r : Row) : ScanResultItem :=
  { folder_name := r.folder_path
    success := r.success
    num_dir := r.num_dir
    num_file := r.num_file
    total_size :=
      match r.total_size_bytes with
      | some b =>
        some ⟨b, r.total_size_formatted.getD 0,
          (match r.total_size_unit with
           | some u => if u = "" then "B" else u
           | none => "B")⟩
      | none => none
    elapsed_time_ms := r.elapsed_time_ms
    error := r.error }

/-- Loop state of `_load_from_disk` (storage.py lines 226–341).  `last_status`
and `last_scan_error` carry the loop-leaked `status` / `scan_error` variables
used by the final flush after the loop. -/
structure LoadState where
  current_scan_slug : Option String := none
  current_scan_name : Option String := none
  current_timestamp : Option Timestamp := none
  last_status : String := ""
  last_scan_error : Option String := none
  results_for_scan : List ScanResult := []
  items_for_result : List ScanResultItem := []
  acc : List (String × List ScanResult) := []

/-- `results_for_scan[:max_history]` applied when the list exceeds the cap. -/
def capHistory (k : ℕ) (l : List ScanResult) : List ScanResult :=
  if l.length > k then l.take k else l

/-- `(current_scan_slug and current_scan_slug != scan_slug) or
(current_timestamp and current_timestamp != timestamp)`. -/
def groupChanged (st : LoadState) (r : Row) : Bool :=
  (optStrTruthy st.current_scan_slug &&
    !(st.current_scan_slug.getD "" == r.scan_slug)) ||
  (st.current_timestamp.isSome &&
    !(st.current_timestamp.getD ⟨0, 0⟩ == r.timestamp))

/-- `current_scan_slug and current_scan_slug != scan_slug`. -/
def slugChanged (st : LoadState) (r : Row) : Bool :=
  optStrTruthy st.current_scan_slug &&
    !(st.current_scan_slug.getD "" == r.scan_slug)

/-- The `ScanResult` flushed for the group gathered so far; the source builds it
with the status and scan-level error of the row being processed. -/
def flushedResult (st : LoadState) (status : String) (scan_error : Option String) :
    ScanResult :=
  { scan_slug := st.current_scan_slug.getD ""
    scan_name := st.current_scan_name.getD ""
    timestamp := st.current_timestamp.getD ⟨0, 0⟩
    status := status
    error := scan_error
    results := st.items_for_result }

/-- One iteration of the row loop of `_load_from_disk`. -/
def loadStep (k : ℕ) (st : LoadState) (r : Row) : LoadState :=
  if r.folder_path = "__SCAN_STATUS_MARKER__" then
    -- flush the pending item group
    let st :=
      if !st.items_for_result.isEmpty && optStrTruthy st.current_scan_slug then
        { st with
          results_for_scan := st.results_for_scan ++ [flushedResult st r.status r.scan_error]
          items_for_result := [] }
      else st
    -- on a slug change, flush the capped per-slug list into the dict
    let st :=
      if groupChanged st r then
        if slugChanged st r then
          { st with
            acc := memStore st.acc (st.current_scan_slug.getD "")
              (capHistory k st.results_for_scan)
            results_for_scan := [] }
        else st
      else st
    { st with
      results_for_scan := st.results_for_scan ++
        [{ scan_slug := r.scan_slug, scan_name := r.scan_name,
           timestamp := r.timestamp, status := r.status, error := r.scan_error,
           results := [] }]
      current_scan_slug := some r.scan_slug
      current_scan_name := some r.scan_name
      current_timestamp := some r.timestamp
      last_status := r.status
      last_scan_error := r.scan_error }
  else
    let st :=
      if groupChanged st r then
        let st :=
          if !st.items_for_result.isEmpty then
            { st with
              results_for_scan := st.results_for_scan ++ [flushedResult st r.status r.scan_error]
              items_for_result := [] }
          else st
        if slugChanged st r then
          { st with
            acc := memStore st.acc (st.current_scan_slug.getD "")
              (capHistory k st.results_for_scan)
            results_for_scan := [] }
        else st
      else st
    { st with
      items_for_result := st.items_for_result ++ [loadRowItem r]
      current_scan_slug := some r.scan_slug
      current_scan_name := some r.scan_name
      current_timestamp := some r.timestamp
      last_status := r.status
      last_scan_error := r.scan_error }

/-- The flushes after the loop (storage.py lines 326–341). -/
def loadFinish (k : ℕ) (st : LoadState) : List (String × List ScanResult) :=
  let st :=
    if !st.items_for_result.isEmpty && optStrTruthy st.current_scan_slug then
      { st with
        results_for_scan := st.results_for_scan ++
          [flushedResult st st.last_status st.last_scan_error] }
    else st
  if optStrTruthy st.current_scan_slug then
    memStore st.acc (st.current_scan_slug.getD "") (capHistory k st.results_for_scan)
  else st.acc

/-- `_load_from_disk`: fold the row loop over the rows the cursor yields
(ordered by `scan_slug, timestamp DESC, folder_path`). -/
def loadFromDisk (k : ℕ) (rows : List Row) : List (String × List ScanResult) :=
  loadFinish k (rows.foldl (loadStep k) {})

/-- `cleanup_old_results(days)` on construction (storage.py lines 658–742),
with the cutoff instant precomputed: delete rows strictly older than the
cutoff, and drop the corresponding in-memory entries (removing slugs whose
list becomes empty). -/
def cleanupOldResults (cutoff : Timestamp) (st : StorageState) : StorageState :=
  { table := st.table.filter (fun r => !(decide (r.timestamp < cutoff)))
    results := (st.results.map
        (fun p => (p.1, p.2.filter (fun r => !(decide (r.timestamp < cutoff)))))).filter
      (fun p => !p.2.isEmpty) }

/-- `ScanStorage.__init__`: drop-and-recreate the table, load from the (now
empty) table, run the automatic cleanup. -/
def scanStorageInit (prior : List Row) (max_history : ℕ) (cutoff : Timestamp) :
    StorageState :=
  let table := initDatabase prior
  let results := loadFromDisk max_history table
  cleanupOldResults cutoff { results := results, table := table }

/-- `get_all_results` (storage.py lines 535–537). -/
def getAllResults (st : StorageState) (slug : String) : List ScanResult :=
  memLookup st.results slug

/-- `get_latest_result` (storage.py lines 507–511). -/
def getLatestResult (st : StorageState) (slug : String) : Option ScanResult :=
  (memLookup st.results slug).getLast?

/-- `get_all_folders` without filters (storage.py lines 622–656):
`SELECT DISTINCT nas_host, folder_path` (the SQL additionally orders the
pairs). -/
def getAllFolders (st : StorageState) : List (String × String) :=
  (st.table.map (fun r => (r.nas_host, r.folder_path))).dedup

/-- C10: every construction of the storage drops and recreates the
`scan_results` table before loading, so whatever rows a previous process
instance persisted, the freshly constructed storage has an empty table, loads
nothing into memory, and every query returns no history. -/
theorem storage_wiped_on_init (prior : List Row) (k : ℕ) (cutoff : Timestamp) :
    (scanStorageInit prior k cutoff).table = [] ∧
    (scanStorageInit prior k cutoff).results = [] ∧
    (∀ slug, getAllResults (scanStorageInit prior k cutoff) slug = []) ∧
    (∀ slug, getLatestResult (scanStorageInit prior k cutoff) slug = none) ∧
    getAllFolders (scanStorageInit prior k cutoff) = [] := by
  refine ⟨rfl, rfl, fun slug => rfl, fun slug => rfl, rfl⟩

/-! ## Configuration loading (claim C4)

`load_config` (app/config/loader.py lines 16–69) validates the parsed YAML with
`ConfigYAML(**config_data)` — whose `generate_ids` model validator
(app/models/config.py lines 84–110) fills in `created_at`, generates missing
slugs with `generate_slug` and makes all slugs unique with
`ensure_unique_slugs` (app/utils/slug.py) — and only then calls
`_remove_duplicate_slugs` (loader.py lines 72–125). -/

/-- The fields of `ScanTaskConfigYAML` that the slug handling reads. -/
structure ScanCfg where
  name : String
  slug : Option String
  created_at : Option Timestamp
  enabled : Bool := true
  deriving DecidableEq, Repr

/-- Replace each maximal run of characters satisfying `p` by one `rep`
(`re.sub(r"[...]+", rep, s)`). -/
def squeezeRuns (p : Char → Bool) (rep : Char) : List Char → Bool → List Char
  | [], _ => []
  | c :: cs, inRun =>
    if p c then
      if inRun then squeezeRuns p rep cs true
      else rep :: squeezeRuns p rep cs true
    else c :: squeezeRuns p rep cs false

/-- `generate_slug` (app/utils/slug.py lines 8–41).  The NFKD + ASCII-encode
step maps ASCII input to itself and is embedded as dropping non-ASCII
characters. -/
def generateSlug (name : String) : String :=
  let cs := name.data.filter (fun c => c.toNat < 128)
  let cs := cs.map Char.toLower
  let cs := squeezeRuns (fun c => c.isWhitespace || c == '_') '-' cs false
  let cs := cs.filter (fun c => ('a' ≤ c && c ≤ 'z') || ('0' ≤ c && c ≤ '9') || c == '-')
  let cs := squeezeRuns (fun c => c == '-') '-' cs false
  let cs := ((cs.dropWhile (· = '-')).reverse.dropWhile (· = '-')).reverse
  if cs.isEmpty then "scan" else ⟨cs⟩

/-- The `while slug in seen: counter += 1; slug = f"{orig}-{counter}"` loop of
`ensure_unique_slugs`; the fuel `|seen| + 1` is enough because the candidates
`orig-2 … orig-(|seen|+2)` are pairwise distinct. -/
def freshSlug (seen : List String) (orig : String) : ℕ → ℕ → String
  | 0, c => orig ++ "-" ++ toString c
  | fuel + 1, c =>
    let cand := orig ++ "-" ++ toString c
    if seen.contains cand then freshSlug seen orig fuel (c + 1) else cand

/-- `ensure_unique_slugs` (app/utils/slug.py lines 71–97). -/
def ensureUniqueSlugsGo : List String → List String → List String
  | [], _ => []
  | s :: rest, seen =>
    let s2 := if seen.contains s then freshSlug seen s (seen.length + 1) 2 else s
    s2 :: ensureUniqueSlugsGo rest (seen ++ [s2])

def ensureUniqueSlugs (slugs : List String) : List String :=
  ensureUniqueSlugsGo slugs []

/-- `ConfigYAML.generate_ids`: set missing `created_at` to now, generate
missing slugs from names, then make all slugs unique (renaming duplicates with
`-2`, `-3`, … suffixes). -/
def generateIds (scans : List ScanCfg) (now : Timestamp) : List ScanCfg :=
  let scans := scans.map fun sc =>
    { sc with
      created_at := some (sc.created_at.getD now)
      slug := some (sc.slug.getD (generateSlug sc.name)) }
  let slugs := scans.map fun sc => sc.slug.getD ""
  List.zipWith (fun sc u => { sc with slug := some u }) scans (ensureUniqueSlugs slugs)

def slugOf (sc : ScanCfg) : String := sc.slug.getD ""

/-- `datetime.min` with UTC tzinfo, the sort key used for scans without
`created_at` (loader.py line 96): 0001-01-01T00:00:00 as seconds before the
epoch. -/
def datetimeMin : Timestamp := ⟨-62135596800, 0⟩

def createdKey (sc : ScanCfg) : Timestamp := sc.created_at.getD datetimeMin

/-- Keys in order of first occurrence — the iteration order of the
`slug_groups` dict built in `_remove_duplicate_slugs`. -/
def firstOccurrences : List String → List String → List String
  | [], _ => []
  | s :: rest, seen =>
    if seen.contains s then firstOccurrences rest seen
    else s :: firstOccurrences rest (seen ++ [s])

/-- `_remove_duplicate_slugs` (loader.py lines 72–125): group by slug; in each
group of two or more, stably sort by `created_at or datetime.min` and keep the
first (oldest; ties broken by file order), recording one warning
`(slug, removed scan name)` per dropped scan. -/
def removeDuplicateSlugs (scans : List ScanCfg) :
    List ScanCfg × List (String × String) :=
  let keys := firstOccurrences (scans.map slugOf) []
  let pairs := keys.map fun key =>
    let group := scans.filter (fun sc => slugOf sc == key)
    if group.length > 1 then
      let sorted := group.insertionSort (fun a b => createdKey a ≤ createdKey b)
      (sorted.take 1, (sorted.drop 1).map (fun rm => (key, rm.name)))
    else (group, ([] : List (String × String)))
  ((pairs.map (·.1)).flatten, (pairs.map (·.2)).flatten)

/-- `load_config`: Pydantic validation (running `generate_ids`) followed by
`_remove_duplicate_slugs`. -/
def loadConfigScans (scans : List ScanCfg) (now : Timestamp) :
    List ScanCfg × List (String × String) :=
  removeDuplicateSlugs (generateIds scans now)

/-- C4: evaluating the loader at a configuration holding two scans with the
same explicit slug `"x"` — scan A created later (t = 2) than scan B (t = 1).
The claim requires dropping A (keeping the oldest, B, under slug `"x"`, with a
recorded warning); the code instead renames B's slug to `"x-2"` inside
validation, keeps both scans, records no warning, and leaves the newer scan A
holding the slug `"x"`. -/
theorem loader_duplicate_slug_bug :
    loadConfigScans
      [{ name := "A", slug := some "x", created_at := some ⟨2, 0⟩ },
       { name := "B", slug := some "x", created_at := some ⟨1, 0⟩ }] ⟨50, 0⟩
    = ([{ name := "A", slug := some "x", created_at := some ⟨2, 0⟩ },
        { name := "B", slug := some "x-2", created_at := some ⟨1, 0⟩ }], []) ∧
    removeDuplicateSlugs
      [{ name := "A", slug := some "x", created_at := some ⟨2, 0⟩ },
       { name := "B", slug := some "x", created_at := some ⟨1, 0⟩ }]
    = ([{ name := "B", slug := some "x", created_at := some ⟨1, 0⟩ }],
       [("x", "A")]) := by
  constructor
  · decide
  · decide

/-! ## Progress-oracle path indexing (claim C9)

`get_scan_progress` (app/api/routes.py lines 158–300) indexes the latest
completed baseline's items and the live per-path statuses by normalized path:

```python
def normalize_path(p): return p.strip().strip('/')

historical_by_path = {}
for item in last_completed.results:
    if item.success:
        historical_by_path[normalize_path(item.folder_name)] = {...}

normalized_path_status = {}
for path, status in path_status.items():
    normalized = normalize_path(path)
    if normalized not in normalized_path_status:
        normalized_path_status[normalized] = status
    elif status.get("total_size", 0) > existing.get("total_size", 0):
        normalized_path_status[normalized] = status
```
-/

/-- `normalize_path` of the route: strip whitespace, then slashes from both
ends. -/
def routeNormalize (p : String) : String :=
  ⟨((( pyStrip p.data).dropWhile (· = '/')).reverse.dropWhile (· = '/')).reverse⟩

/-- Baseline entry stored per normalized path. -/
structure HistEntry where
  size : ℤ
  dirs : ℤ
  files : ℤ
  original_path : String
  deriving DecidableEq, Repr

def mkHistEntry (item : ScanResultItem) : HistEntry :=
  { size := (item.total_size.map (·.bytes)).getD 0
    dirs := item.num_dir.getD 0
    files := item.num_file.getD 0
    original_path := item.folder_name }

/-- The baseline index: last assignment wins on key collision (plain dict
assignment). -/
def historicalByPath (items : List ScanResultItem) : String → Option HistEntry :=
  items.foldl
    (fun m item =>
      if item.success then
        Function.update m (routeNormalize item.folder_name) (some (mkHistEntry item))
      else m)
    (fun _ => none)

/-- One live per-path status record. -/
structure PathStatus where
  num_dir : ℤ
  num_file : ℤ
  total_size : ℤ
  waited : ℤ
  finished : Bool
  deriving DecidableEq, Repr

/-- One iteration of the live-index loop: on key collision the status with the
strictly larger `total_size` wins (the first one is kept on ties). -/
def npsStep (m : String → Option PathStatus) (e : String × PathStatus) :
    String → Option PathStatus :=
  let key := routeNormalize e.1
  match m key with
  | none => Function.update m key (some e.2)
  | some ex =>
    if e.2.total_size > ex.total_size then Function.update m key (some e.2)
    else m

def normalizedPathStatus (entries : List (String × PathStatus)) :
    String → Option PathStatus :=
  entries.foldl npsStep (fun _ => none)

/-- C9 counterexample: two successful baseline items collapse to the
normalized path `"x"`; the first has totalSize 100, the second 50.  The claim
requires the index to keep the larger (100); the code keeps the later item
(50). -/
theorem progress_baseline_cx :
    (historicalByPath
        [{ folder_name := "/x", success := true, num_dir := some 1,
           num_file := some 1, total_size := some ⟨100, 100, "B"⟩ },
         { folder_name := "x/", success := true, num_dir := some 2,
           num_file := some 2, total_size := some ⟨50, 50, "B"⟩ }] "x").map (·.size)
      = some 50 ∧ (50 : ℤ) < 100 := by
  constructor
  · decide
  · decide

/-! ### The C9 index characterizations -/

theorem historicalByPath_append (l : List ScanResultItem) (it : ScanResultItem) :
    historicalByPath (l ++ [it]) =
      (fun m item =>
        if item.success then
          Function.update m (routeNormalize item.folder_name) (some (mkHistEntry item))
        else m) (historicalByPath l) it := by
  unfold historicalByPath
  rw [List.foldl_append]
  rfl

/-- Last-assignment-wins characterization of the baseline index. -/
theorem historicalByPath_last (items : List ScanResultItem) (key : String) :
    historicalByPath items key =
      ((items.filter (fun it => it.success &&
          (routeNormalize it.folder_name == key))).getLast?).map mkHistEntry := by
  induction items using List.reverseRecOn with
  | nil => rfl
  | append_singleton l it ih =>
    rw [historicalByPath_append, List.filter_append]
    by_cases hs : it.success = true
    · by_cases hk : routeNormalize it.folder_name = key
      · have hf : List.filter (fun it => it.success &&
            (routeNormalize it.folder_name == key)) [it] = [it] := by
          simp [hs, hk]
        rw [hf, List.getLast?_concat]
        simp only [hs, if_true, hk, Function.update_same]
        rfl
      · have hf : List.filter (fun it => it.success &&
            (routeNormalize it.folder_name == key)) [it] = [] := by
          simp [hs, hk]
        rw [hf, List.append_nil]
        simp only [hs, if_true]
        rw [Function.update_noteq (Ne.symm hk)]
        exact ih
    · have hs2 : it.success = false := by simpa using hs
      have hf : List.filter (fun it => it.success &&
          (routeNormalize it.folder_name == key)) [it] = [] := by
        simp [hs2]
      rw [hf, List.append_nil]
      simp only [hs2, Bool.false_eq_true, if_false]
      exact ih

theorem normalizedPathStatus_append (l : List (String × PathStatus))
    (e : String × PathStatus) :
    normalizedPathStatus (l ++ [e]) = npsStep (normalizedPathStatus l) e := by
  unfold normalizedPathStatus
  rw [List.foldl_append]
  rfl

theorem npsStep_none {m : String → Option PathStatus} {e : String × PathStatus}
    (hm : m (routeNormalize e.1) = none) :
    npsStep m e = Function.update m (routeNormalize e.1) (some e.2) := by
  simp only [npsStep]
  rw [hm]

theorem npsStep_some_gt {m : String → Option PathStatus} {e : String × PathStatus}
    {ex : PathStatus} (hm : m (routeNormalize e.1) = some ex)
    (hgt : e.2.total_size > ex.total_size) :
    npsStep m e = Function.update m (routeNormalize e.1) (some e.2) := by
  simp only [npsStep]
  rw [hm]
  show (if e.2.total_size > ex.total_size then
      Function.update m (routeNormalize e.1) (some e.2) else m)
    = Function.update m (routeNormalize e.1) (some e.2)
  rw [if_pos hgt]

theorem npsStep_some_le {m : String → Option PathStatus} {e : String × PathStatus}
    {ex : PathStatus} (hm : m (routeNormalize e.1) = some ex)
    (hle : ¬ e.2.total_size > ex.total_size) :
    npsStep m e = m := by
  simp only [npsStep]
  rw [hm]
  show (if e.2.total_size > ex.total_size then
      Function.update m (routeNormalize e.1) (some e.2) else m) = m
  rw [if_neg hle]

theorem npsStep_other {m : String → Option PathStatus} {e : String × PathStatus}
    {key : String} (hne : routeNormalize e.1 ≠ key) :
    npsStep m e key = m key := by
  rcases hm : m (routeNormalize e.1) with _ | ex
  · rw [npsStep_none hm]
    exact Function.update_noteq (Ne.symm hne) _ _
  · by_cases hgt : e.2.total_size > ex.total_size
    · rw [npsStep_some_gt hm hgt]
      exact Function.update_noteq (Ne.symm hne) _ _
    · rw [npsStep_some_le hm hgt]

theorem normalizedPathStatus_none (entries : List (String × PathStatus))
    (key : String) :
    normalizedPathStatus entries key = none →
      ∀ e ∈ entries, routeNormalize e.1 ≠ key := by
  induction entries using List.reverseRecOn with
  | nil =>
    intro _ e he
    cases he
  | append_singleton l e2 ih =>
    intro h e he
    rw [normalizedPathStatus_append] at h
    by_cases hk : routeNormalize e2.1 = key
    · exfalso
      rcases hm : normalizedPathStatus l key with _ | ex
      · rw [npsStep_none (by rw [hk]; exact hm), hk, Function.update_same] at h
        cases h
      · by_cases hgt : e2.2.total_size > ex.total_size
        · rw [npsStep_some_gt (by rw [hk]; exact hm) hgt, hk,
            Function.update_same] at h
          cases h
        · rw [npsStep_some_le (by rw [hk]; exact hm) hgt, hm] at h
          cases h
    · rw [npsStep_other hk] at h
      rcases List.mem_append.mp he with hl | he2
      · exact ih h e hl
      · rw [List.mem_singleton] at he2
        subst he2
        exact hk

/-- The live index keeps, for each normalized key, a colliding entry whose
`total_size` is maximal among all colliding entries. -/
theorem normalizedPathStatus_max (entries : List (String × PathStatus))
    (key : String) (st : PathStatus)
    (h : normalizedPathStatus entries key = some st) :
    (∃ e ∈ entries, routeNormalize e.1 = key ∧ e.2 = st) ∧
    ∀ e ∈ entries, routeNormalize e.1 = key → e.2.total_size ≤ st.total_size := by
  induction entries using List.reverseRecOn generalizing st with
  | nil => cases h
  | append_singleton l e2 ih =>
    rw [normalizedPathStatus_append] at h
    by_cases hk : routeNormalize e2.1 = key
    · rcases hm : normalizedPathStatus l key with _ | ex
      · rw [npsStep_none (by rw [hk]; exact hm), hk, Function.update_same] at h
        obtain rfl : e2.2 = st := Option.some.inj h
        constructor
        · exact ⟨e2, List.mem_append_right _ (List.mem_singleton_self _), hk, rfl⟩
        · intro e he hke
          rcases List.mem_append.mp he with hl | he2
          · exact absurd hke (normalizedPathStatus_none l key hm e hl)
          · rw [List.mem_singleton] at he2
            subst he2
            exact le_refl _
      · by_cases hgt : e2.2.total_size > ex.total_size
        · rw [npsStep_some_gt (by rw [hk]; exact hm) hgt, hk,
            Function.update_same] at h
          obtain rfl : e2.2 = st := Option.some.inj h
          obtain ⟨_, hex_max⟩ := ih ex hm
          constructor
          · exact ⟨e2, List.mem_append_right _ (List.mem_singleton_self _), hk, rfl⟩
          · intro e he hke
            rcases List.mem_append.mp he with hl | he2
            · exact le_trans (hex_max e hl hke) (le_of_lt hgt)
            · rw [List.mem_singleton] at he2
              subst he2
              exact le_refl _
        · rw [npsStep_some_le (by rw [hk]; exact hm) hgt] at h
          have hexst : ex = st := Option.some.inj (hm.symm.trans h)
          subst hexst
          obtain ⟨hex_mem, hex_max⟩ := ih ex hm
          constructor
          · obtain ⟨e, hel, hke, heq⟩ := hex_mem
            exact ⟨e, List.mem_append_left _ hel, hke, heq⟩
          · intro e he hke
            rcases List.mem_append.mp he with hl | he2
            · exact hex_max e hl hke
            · rw [List.mem_singleton] at he2
              subst he2
              omega
    · rw [npsStep_other hk] at h
      obtain ⟨hmem, hmax⟩ := ih st h
      constructor
      · obtain ⟨e, hel, hke, heq⟩ := hmem
        exact ⟨e, List.mem_append_left _ hel, hke, heq⟩
      · intro e he hke
        rcases List.mem_append.mp he with hl | he2
        · exact hmax e hl hke
        · rw [List.mem_singleton] at he2
          subst he2
          exact absurd hke hk

/-- C9 amended: the baseline index `historical_by_path` keeps the LAST
successful item assigned to each normalized path (plain dict assignment, the
item's totalSize plays no role); the keep-the-larger-totalSize rule applies to
the live per-path status map `normalized_path_status` instead, whose kept entry
has maximal totalSize among the colliding entries. -/
theorem progress_indexing_amended :
    (∀ (items : List ScanResultItem) (key : String),
      historicalByPath items key =
        ((items.filter (fun it => it.success &&
            (routeNormalize it.folder_name == key))).getLast?).map mkHistEntry) ∧
    (∀ (entries : List (String × PathStatus)) (key : String) (st : PathStatus),
      normalizedPathStatus entries key = some st →
      (∃ e ∈ entries, routeNormalize e.1 = key ∧ e.2 = st) ∧
      ∀ e ∈ entries, routeNormalize e.1 = key → e.2.total_size ≤ st.total_size) :=
  ⟨historicalByPath_last, normalizedPathStatus_max⟩

/-- Witness for `progress_indexing_amended`: on two live entries colliding at
`"x"` with sizes 100 and 50, the kept status is the one with size 100. -/
theorem progress_indexing_amended_witness :
    (∃ e ∈ [("/x", (⟨1, 1, 100, 0, false⟩ : PathStatus)),
            ("x/", (⟨2, 2, 50, 0, false⟩ : PathStatus))],
      routeNormalize e.1 = "x" ∧ e.2 = (⟨1, 1, 100, 0, false⟩ : PathStatus)) ∧
    ∀ e ∈ [("/x", (⟨1, 1, 100, 0, false⟩ : PathStatus)),
           ("x/", (⟨2, 2, 50, 0, false⟩ : PathStatus))],
      routeNormalize e.1 = "x" →
        e.2.total_size ≤ (100 : ℤ) :=
  progress_indexing_amended.2
    [("/x", ⟨1, 1, 100, 0, false⟩), ("x/", ⟨2, 2, 50, 0, false⟩)] "x"
    ⟨1, 1, 100, 0, false⟩ (by decide)

/-! ## `DirSizePollingHelper.handle_error_599` (dir_size_polling.py lines
424–571) and its dispatch in `poll_task_status` (lines 735–745)

The helper receives the current 599 counter and consults, at most: the
BackgroundTask list when the incremented counter is exactly 2 (`bg2`), the
BackgroundTask list when it is ≥ `max_error_599` (`bg3`), and a one-shot
DirSize status check (`final1` when the task is absent from the list, `final2`
when present and finished).  These oracle responses stand for the `_api_call`
results; the elapsed runtime `time.time() - start_time` is precomputed as
`elapsed`. -/

structure BgTask where
  taskid : String
  finished : PyVal
  deriving DecidableEq, Repr

structure BgResp where
  success : Bool
  tasks : List BgTask
  deriving DecidableEq, Repr

/-- A DirSize `status` response: `success`, plus the `data.get` results the
handler reads (`finished` is tested by plain truthiness here, not by
`_is_task_finished`). -/
structure DirStatusResp where
  success : Bool
  finished : PyVal
  num_dir : ℤ
  num_file : ℤ
  total_size : ℤ
  deriving DecidableEq, Repr

/-- The result dictionary built on the recovery paths. -/
structure ResultDict where
  num_dir : ℤ
  num_file : ℤ
  total_size : ℤ
  elapsed_time : ℚ
  deriving DecidableEq, Repr

/-- Output of `handle_error_599`: `(new counter, optional result dict, new
last_status_print)`, plus the `_active_tasks` list after the call and the
extra sleep performed in the count-2 branch. -/
structure Handle599Out where
  count : ℕ
  result : Option ResultDict
  last_status_print : ℤ
  active : List String
  extra_sleep : ℕ
  deriving DecidableEq, Repr

def handleError599 (task_id : String) (count max599 : ℕ)
    (waited last_print : ℤ) (active : List String) (elapsed : ℚ)
    (bg2 bg3 : Option BgResp) (final1 final2 : Option DirStatusResp) :
    Handle599Out :=
  let count := count + 1
  let last_print := if waited - last_print ≥ 10 then waited else last_print
  -- after 2 errors: check whether the task exists in the BackgroundTask API
  let (count, extra_sleep) : ℕ × ℕ :=
    if count = 2 then
      match bg2 with
      | some resp =>
        if resp.success then
          if resp.tasks.any (fun t => t.taskid == task_id) then (0, 3)
          else (count, 0)
        else (count, 0)
      | none => (count, 0)
    else (count, 0)
  -- too many 599 errors: check whether the task still exists
  if count ≥ max599 then
    match bg3 with
    | some resp =>
      if resp.success then
        match resp.tasks.find? (fun t => t.taskid == task_id) with
        | none =>
          -- task gone: one last DirSize status check
          (match final1 with
           | some fs =>
             if fs.success && fs.finished.truthy then
               { count := count
                 result := some ⟨fs.num_dir, fs.num_file, fs.total_size, roundTwo elapsed⟩
                 last_status_print := last_print
                 active := active.erase task_id
                 extra_sleep := extra_sleep }
             else
               ⟨count, none, last_print, active.erase task_id, extra_sleep⟩
           | none => ⟨count, none, last_print, active.erase task_id, extra_sleep⟩)
        | some t =>
          if t.finished.truthy then
            -- task finished on the NAS: fetch the result via DirSize status
            match final2 with
            | some fs =>
              if fs.success && fs.finished.truthy then
                { count := count
                  result := some ⟨fs.num_dir, fs.num_file, fs.total_size, roundTwo elapsed⟩
                  last_status_print := last_print
                  active := active.erase task_id
                  extra_sleep := extra_sleep }
              else ⟨count, none, last_print, active, extra_sleep⟩
            | none => ⟨count, none, last_print, active, extra_sleep⟩
          else
            -- task still running: reset the counter and keep polling
            ⟨0, none, last_print, active, extra_sleep⟩
      else
        -- could not query the BackgroundTask API
        ⟨count, none, last_print, active.erase task_id, extra_sleep⟩
    | none => ⟨count, none, last_print, active.erase task_id, extra_sleep⟩
  else ⟨count, none, last_print, active, extra_sleep⟩

/-- What the polling loop does next after the 599 handler returns. -/
inductive LoopDirective where
  | finish (d : ResultDict)
  | continueLoop
  deriving DecidableEq, Repr

/-- The caller side in `poll_task_status` (lines 735–745): it adopts the new
counter and `last_status_print` and returns only when the result dict is not
`None`; every `None` — including the ones the helper's inline comments mark as
"sollte abgebrochen werden" (lost task) — continues the loop. -/
def dispatch599 (out : Handle599Out) : LoopDirective :=
  match out.result with
  | some d => .finish d
  | none => .continueLoop

/-- C2: behaviour of the 599 policy at the decisive inputs.

1. Failing input: the third consecutive 599 (counter arrives at 2, becomes 3 =
  `max_error_599`), `ListBackgroundTasks` succeeds without the task, and the
  final one-shot `PollDirSize` reports unfinished.  The claim requires the
  engine to terminate as LostTask; the code removes the task id from
  `_active_tasks` and returns a `None` result — which `poll_task_status`
  treats as "continue", so the loop keeps polling until the overall timeout.
2. The count-2 branch with the task present resets the counter and sleeps an
  extra 3 s.
3. At count ≥ 3 with the task present and running, the counter resets and
  polling continues.
4. At count ≥ 3 with the task absent but the final poll finished, the result
  is fetched and returned. -/
theorem handleError599_spec :
    (handleError599 "t1" 2 3 20 0 ["t1"] 30 none
        (some ⟨true, []⟩) (some ⟨true, .bool false, 0, 0, 0⟩) none).result = none ∧
    (handleError599 "t1" 2 3 20 0 ["t1"] 30 none
        (some ⟨true, []⟩) (some ⟨true, .bool false, 0, 0, 0⟩) none).active = [] ∧
    (handleError599 "t1" 2 3 20 0 ["t1"] 30 none
        (some ⟨true, []⟩) (some ⟨true, .bool false, 0, 0, 0⟩) none).count = 3 ∧
    dispatch599 (handleError599 "t1" 2 3 20 0 ["t1"] 30 none
        (some ⟨true, []⟩) (some ⟨true, .bool false, 0, 0, 0⟩) none)
      = .continueLoop ∧
    (handleError599 "t1" 1 3 20 0 ["t1"] 30
        (some ⟨true, [⟨"t1", .bool false⟩]⟩) none none none).count = 0 ∧
    (handleError599 "t1" 1 3 20 0 ["t1"] 30
        (some ⟨true, [⟨"t1", .bool false⟩]⟩) none none none).extra_sleep = 3 ∧
    (handleError599 "t1" 2 3 20 0 ["t1"] 30 none
        (some ⟨true, [⟨"t1", .bool false⟩]⟩) none none).count = 0 ∧
    dispatch599 (handleError599 "t1" 2 3 20 0 ["t1"] 30 none
        (some ⟨true, [⟨"t1", .bool false⟩]⟩) none none) = .continueLoop ∧
    ((handleError599 "t1" 2 3 20 0 ["t1"] 30 none
        (some ⟨true, []⟩) (some ⟨true, .bool true, 7, 9, 777⟩) none).result).map
      (·.total_size) = some 777 := by
  refine ⟨?_, ?_, ?_, ?_, ?_, ?_, ?_, ?_, ?_⟩ <;> decide

end Ssa
